import Mathlib

/-!
# Verification of the layout-optimization engine of Architectural_Space_Floor

This file gives a shallow embedding, over the rationals, of the core layout
generator found in `src/layout_generator.py` (classes `Rectangle`, `Ilot`,
`Corridor`, `LayoutGenerator`), and proves or refutes the frozen claims about
it.

Modelling conventions:
* Python floats are embedded as `ℚ` (every IEEE float value is a rational, so
  rational-valued runs are a superset of the float-valued runs and contain all
  of them exactly).
* All randomness (`random.uniform`, `random.random`, `random.sample`,
  `random.randint`) is externalised into an oracle `Rng`: a stream of rational
  values consumed left to right.  Universal theorems quantify over every
  oracle, which covers every value the library calls can return;
  counterexamples instantiate the oracle with concrete values lying in the
  ranges the corresponding library call can produce.
* In `_place_random_ilot` the source draws `area` and an aspect value and then
  computes `width = sqrt(area*aspect)`, `height = area/width`.  Since `sqrt`
  leaves ℚ, the embedding draws the resulting `area`, `width` and `height`
  directly from the oracle (the map (area, aspect) ↦ (area, width, height) is
  a bijection onto its image, so this parameterisation reaches exactly the
  states the source reaches, for some oracle).
* Python `str(n)` ids are embedded as the underlying natural number `n`
  (`str` is injective on naturals, so distinctness of ids is preserved in
  both directions).  Corridor id strings keep their prefixed form.
* Python `list.sort(key=..., reverse=True)` is a stable descending sort; the
  embedding uses a stable descending insertion sort, which produces the same
  list (a stable sort's output is uniquely determined by the ordering key and
  stability).
-/

set_option maxRecDepth 2000000
set_option maxHeartbeats 16000000

/-- 2D point, from `Point` in layout_generator.py. -/
structure Point where
  x : ℚ
  y : ℚ
deriving DecidableEq, Repr

/-- Axis-aligned rectangle, from `Rectangle` in layout_generator.py. -/
structure Rectangle where
  x : ℚ
  y : ℚ
  width : ℚ
  height : ℚ
deriving DecidableEq, Repr

/-- `Rectangle.area` property: `width * height`. -/
def Rectangle.area (r : Rectangle) : ℚ := r.width * r.height

/-- `Rectangle.center` property. -/
def Rectangle.center (r : Rectangle) : Point :=
  ⟨r.x + r.width / 2, r.y + r.height / 2⟩

/-- `Rectangle.contains_point`. -/
def Rectangle.containsPoint (r : Rectangle) (p : Point) : Bool :=
  decide (r.x ≤ p.x) && decide (p.x ≤ r.x + r.width) &&
  decide (r.y ≤ p.y) && decide (p.y ≤ r.y + r.height)

/-- `Rectangle.intersects`: the source returns
`not (self.x + self.width < other.x or other.x + other.width < self.x or
self.y + self.height < other.y or other.y + other.height < self.y)`. -/
def Rectangle.intersects (a b : Rectangle) : Bool :=
  !(decide (a.x + a.width < b.x) || decide (b.x + b.width < a.x) ||
    decide (a.y + a.height < b.y) || decide (b.y + b.height < a.y))

/-- Python `max(a, b)` on rationals, written so it reduces by evaluation. -/
def ratMax (a b : ℚ) : ℚ := if a < b then b else a

/-- Python `min(a, b)` on rationals, written so it reduces by evaluation. -/
def ratMin (a b : ℚ) : ℚ := if b < a then b else a

/-- `abs` on rationals, written so it reduces by evaluation. -/
def ratAbs (q : ℚ) : ℚ := if q < 0 then -q else q

/-- `min` on naturals, written so it reduces by evaluation. -/
def natMin (a b : ℕ) : ℕ := if a < b then a else b

/-- Floor of a rational as an integer (`num.ediv den`, Euclidean division by
the positive denominator). -/
def ratFloor (q : ℚ) : ℤ := q.num.ediv (q.den : ℤ)

/-- A placed unit, from `Ilot` in layout_generator.py.  The Python `id` field
is `str(n)`; it is embedded as the natural `n` itself (see header). -/
structure Ilot where
  id : ℕ
  rect : Rectangle
  room_type : String
  area : ℚ
  min_size : ℚ
  max_size : ℚ
deriving DecidableEq, Repr

/-- A corridor, from `Corridor` in layout_generator.py. -/
structure Corridor where
  id : String
  rect : Rectangle
  width : ℚ
  connected_ilots : List ℕ
deriving DecidableEq, Repr

/-- An individual of the genetic population: the dict
`{'ilots': [...], 'corridors': [...]}` used throughout the source. -/
structure Layout where
  ilots : List Ilot
  corridors : List Corridor
deriving DecidableEq, Repr

/-- One entry of `profile.size_distribution`
(`{'min_size': .., 'max_size': .., 'percentage': ..}`). -/
structure SizeBucket where
  min_size : ℚ
  max_size : ℚ
  percentage : ℚ
deriving DecidableEq, Repr

/-- The fields of `models.IlotProfile` the generator reads.  A profile whose
JSON `size_distribution` is SQL `NULL` is `none`; the empty JSON array is
`some []`. -/
structure IlotProfile where
  size_distribution : Option (List SizeBucket)
  corridor_width : ℚ
deriving DecidableEq, Repr

/-- The fields of `models.FloorPlan` the generator reads. -/
structure FloorPlan where
  width : ℚ
  height : ℚ
deriving DecidableEq, Repr

/-- The fields of `models.ZoneAnnotation` the generator reads.  The source
accepts the coordinates either as `{x,y}` records or `[x,y]` pairs and treats
`None` as `[]`; both formats denote the same point list, embedded here
directly as `List Point`. -/
structure Zone where
  type : String
  coordinates : List Point
deriving DecidableEq, Repr

/-- Minimum of a list of rationals (`min(xs)` on a nonempty list). -/
def minList : List ℚ → ℚ
  | [] => 0
  | x :: xs => xs.foldl ratMin x

/-- Maximum of a list of rationals (`max(xs)` on a nonempty list). -/
def maxList : List ℚ → ℚ
  | [] => 0
  | x :: xs => xs.foldl ratMax x

/-- `LayoutGenerator._coords_to_rectangles`: with fewer than 4 points nothing
is produced, otherwise the bounding box of all the points. -/
def coordsToRectangles (coords : List Point) : List Rectangle :=
  if coords.length < 4 then []
  else
    let xs := coords.map Point.x
    let ys := coords.map Point.y
    [⟨minList xs, minList ys, maxList xs - minList xs, maxList ys - minList ys⟩]

/-- The generator state built by `LayoutGenerator.__init__`: the floor plan,
the profile, and the zone rectangles grouped by kind. -/
structure Gen where
  floor_plan : FloorPlan
  profile : IlotProfile
  walls : List Rectangle
  restricted_areas : List Rectangle
  entrance_areas : List Rectangle
deriving DecidableEq, Repr

/-- `LayoutGenerator.__init__`: classify the zones into walls, restricted
areas and entrance/exit areas. -/
def initGen (fp : FloorPlan) (p : IlotProfile) (zones : List Zone) : Gen :=
  { floor_plan := fp
    profile := p
    walls := (zones.filter (fun z => z.type = "wall")).flatMap
      (fun z => coordsToRectangles z.coordinates)
    restricted_areas := (zones.filter (fun z => z.type = "restricted")).flatMap
      (fun z => coordsToRectangles z.coordinates)
    entrance_areas :=
      (zones.filter (fun z => z.type = "entrance" ∨ z.type = "exit")).flatMap
        (fun z => coordsToRectangles z.coordinates) }

/-- `LayoutGenerator._calculate_available_area`. -/
def availableArea (g : Gen) : ℚ :=
  ratMax 0 (g.floor_plan.width * g.floor_plan.height
    - (g.restricted_areas.map Rectangle.area).sum
    - (g.entrance_areas.map Rectangle.area).sum)

/-- `LayoutGenerator._is_valid_placement`: inside the floor bounds, and not
intersecting any existing ilot, restricted area or entrance area. -/
def isValidPlacement (g : Gen) (rect : Rectangle) (existing : List Ilot) : Bool :=
  !(decide (rect.x < 0) || decide (rect.y < 0) ||
    decide (g.floor_plan.width < rect.x + rect.width) ||
    decide (g.floor_plan.height < rect.y + rect.height)) &&
  existing.all (fun i => !(rect.intersects i.rect)) &&
  g.restricted_areas.all (fun z => !(rect.intersects z)) &&
  g.entrance_areas.all (fun z => !(rect.intersects z))

/-- Python `int()` truncation toward zero on a rational. -/
def pyInt (q : ℚ) : ℤ :=
  q.num.tdiv (q.den : ℤ)

/-- The random oracle: a stream of rational values with a read position. -/
structure Rng where
  vals : ℕ → ℚ
  pos : ℕ

/-- Consume one oracle value. -/
def Rng.next (r : Rng) : ℚ × Rng :=
  (r.vals r.pos, ⟨r.vals, r.pos + 1⟩)

/-- Stable ascending insertion of one element (helper for `pySortAsc`). -/
def insertAsc (x : ℚ) : List ℚ → List ℚ
  | [] => [x]
  | y :: ys => if x ≤ y then x :: y :: ys else y :: insertAsc x ys

/-- Python `sorted(...)` on rationals: stable ascending sort. -/
def pySortAsc (l : List ℚ) : List ℚ :=
  l.foldr insertAsc []

/-- Gap scan of `LayoutGenerator._find_corridor_positions`: over consecutive
entries of the sorted boundary list, emit a centered position whenever the gap
is at least `1.5 * corridor_width`. -/
def gapPositions (cw : ℚ) : List ℚ → List ℚ
  | [] => []
  | [_] => []
  | a :: b :: rest =>
    let gap := b - a
    if cw * (3/2) ≤ gap then
      (a + gap / 2 - cw / 2) :: gapPositions cw (b :: rest)
    else gapPositions cw (b :: rest)

/-- `LayoutGenerator._find_corridor_positions` (the positions are capped
at 3 by `positions[:3]`). -/
def findCorridorPositions (g : Gen) (ilots : List Ilot) (horizontal : Bool) : List ℚ :=
  let cw := g.profile.corridor_width
  let coords :=
    if horizontal then
      pySortAsc (ilots.map (fun i => i.rect.y) ++ ilots.map (fun i => i.rect.y + i.rect.height))
    else
      pySortAsc (ilots.map (fun i => i.rect.x) ++ ilots.map (fun i => i.rect.x + i.rect.width))
  (gapPositions cw coords).take 3

/-- `LayoutGenerator._find_connected_ilots`: ids of ilots intersecting the
corridor rectangle expanded by a buffer of 2.0 on all sides. -/
def findConnectedIlots (corridorRect : Rectangle) (ilots : List Ilot) : List ℕ :=
  let expanded : Rectangle :=
    ⟨corridorRect.x - 2, corridorRect.y - 2, corridorRect.width + 2 * 2, corridorRect.height + 2 * 2⟩
  (ilots.filter (fun i => expanded.intersects i.rect)).map Ilot.id

/-- `LayoutGenerator._generate_corridors`: horizontal full-width strips at the
qualifying y gaps, then vertical full-height strips at the qualifying x gaps,
with a shared id counter. -/
def generateCorridors (g : Gen) (ilots : List Ilot) : List Corridor :=
  let cw := g.profile.corridor_width
  let ys := findCorridorPositions g ilots true
  let horiz := ys.enum.map (fun p =>
    let rect : Rectangle := ⟨0, p.2, g.floor_plan.width, cw⟩
    Corridor.mk ("h_corridor_" ++ toString (p.1 + 1)) rect cw (findConnectedIlots rect ilots))
  let xs := findCorridorPositions g ilots false
  let verts := xs.enum.map (fun p =>
    let rect : Rectangle := ⟨p.2, 0, cw, g.floor_plan.height⟩
    Corridor.mk ("v_corridor_" ++ toString (ys.length + p.1 + 1)) rect cw (findConnectedIlots rect ilots))
  horiz ++ verts

/-- First matching bucket key of `LayoutGenerator._get_size_range`: the key
string of the first bucket whose inclusive range contains the area, `none`
standing for the string key of a pair of sizes and the source's
final fallback string being embedded as the `Option` default. -/
def getSizeRange (dist : List SizeBucket) (area : ℚ) : Option (ℚ × ℚ) :=
  (dist.find? (fun b => decide (b.min_size ≤ area) && decide (area ≤ b.max_size))).map
    (fun b => (b.min_size, b.max_size))

/-- One bump of the `actual_distribution` dict:
`actual_distribution[k] = actual_distribution.get(k, 0) + 1`. -/
def dictBump (k : Option (ℚ × ℚ)) : List (Option (ℚ × ℚ) × ℕ) → List (Option (ℚ × ℚ) × ℕ)
  | [] => [(k, 1)]
  | (k', n) :: rest => if k' = k then (k', n + 1) :: rest else (k', n) :: dictBump k rest

/-- Dict read `m.get(k, 0)`: value at the first matching key, default 0. -/
def dictGet : List (Option (ℚ × ℚ) × ℕ) → Option (ℚ × ℚ) → ℕ
  | [], _ => 0
  | e :: rest, k => if e.1 = k then e.2 else dictGet rest k

/-- `LayoutGenerator._evaluate_size_distribution`: 1.0 for a falsy (absent or
empty) profile distribution, otherwise the bucket-averaged clamped deviation
score; the denominator of each actual percentage is `len(ilots)`. -/
def evalSizeDistribution (g : Gen) (ilots : List Ilot) : ℚ :=
  match g.profile.size_distribution with
  | none => 1
  | some [] => 1
  | some (b0 :: bs) =>
    let dist := b0 :: bs
    let actual := ilots.foldl (fun m i => dictBump (getSizeRange dist i.area) m) []
    let total := ilots.length
    let score := dist.foldl (fun s b =>
      let actualCount := dictGet actual (some (b.min_size, b.max_size))
      let actualPct : ℚ := if 0 < total then (actualCount : ℚ) / (total : ℚ) else 0
      let targetPct := b.percentage / 100
      let deviation := ratAbs (actualPct - targetPct)
      s + ratMax 0 (1 - deviation * 2)) 0
    score / (dist.length : ℚ)

/-- Count of aligned pairs in `LayoutGenerator._evaluate_regularity`: pairs
`i < j` with x or y coordinates within tolerance 2.0. -/
def countAlignedPairs : List Ilot → ℕ
  | [] => 0
  | i :: rest =>
    rest.countP (fun j =>
      decide (ratAbs (i.rect.x - j.rect.x) < 2) || decide (ratAbs (i.rect.y - j.rect.y) < 2)) +
    countAlignedPairs rest

/-- `LayoutGenerator._evaluate_regularity`. -/
def evalRegularity (ilots : List Ilot) : ℚ :=
  if ilots.length < 2 then 1
  else
    let aligned := countAlignedPairs ilots
    let maxPairs := ilots.length * (ilots.length - 1) / 2
    let alignScore : ℚ := if 0 < maxPairs then (aligned : ℚ) / (maxPairs : ℚ) else 0
    ratMin 1 alignScore

/-- `LayoutGenerator._evaluate_fitness`: weighted sum of utilization, corridor
efficiency, accessibility, size-distribution adherence and regularity, clamped
above at 1; an empty ilot list scores 0. -/
def evaluateFitness (g : Gen) (l : Layout) : ℚ :=
  match l.ilots with
  | [] => 0
  | _ :: _ =>
    let ilots := l.ilots
    let avail := availableArea g
    let totalIlotArea := (ilots.map Ilot.area).sum
    let utilization := if 0 < avail then totalIlotArea / avail else 0
    let totalCorridorArea := (l.corridors.map (fun c => c.rect.area)).sum
    let corridorFrac := if 0 < avail then totalCorridorArea / avail else 0
    let corridorScore := ratMax 0 (1 - corridorFrac * 2)
    let connected := (l.corridors.flatMap Corridor.connected_ilots).dedup
    let accessibility : ℚ := (connected.length : ℚ) / (ilots.length : ℚ)
    let sizeScore := evalSizeDistribution g ilots
    let regularityScore := evalRegularity ilots
    ratMin 1 (utilization * (3/10) + corridorScore * (2/10) + accessibility * (25/100)
      + sizeScore * (15/100) + regularityScore * (1/10))

/-- The built-in default size distribution of
`LayoutGenerator._create_random_layout`. -/
def defaultSizeDistribution : List SizeBucket :=
  [⟨15, 25, 40⟩, ⟨25, 35, 35⟩, ⟨35, 50, 25⟩]

/-- The distribution actually used by `_create_random_layout`:
`self.profile.size_distribution or [default]` — Python's `or` falls back on
the default both when the field is `None` and when it is the empty list. -/
def effectiveSizeDistribution (p : IlotProfile) : List SizeBucket :=
  match p.size_distribution with
  | some (b :: bs) => b :: bs
  | _ => defaultSizeDistribution

/-- One attempt of `LayoutGenerator._place_random_ilot`: draw the sampled
area and the derived width/height (see header), draw a position, and test
`_is_valid_placement`. -/
def placeAttempt (g : Gen) (ilotId : ℕ) (mins maxs : ℚ) (existing : List Ilot)
    (r : Rng) : Option Ilot × Rng :=
  let (area, r) := r.next
  let (w, r) := r.next
  let (h, r) := r.next
  let (x, r) := r.next
  let (y, r) := r.next
  let rect : Rectangle := ⟨x, y, w, h⟩
  if isValidPlacement g rect existing then
    (some ⟨ilotId, rect, "standard", area, mins, maxs⟩, r)
  else (none, r)

/-- The attempt loop of `_place_random_ilot`, on explicit fuel. -/
def placeLoop (g : Gen) (ilotId : ℕ) (mins maxs : ℚ) (existing : List Ilot) :
    ℕ → Rng → Option Ilot × Rng
  | 0, r => (none, r)
  | n + 1, r =>
    match placeAttempt g ilotId mins maxs existing r with
    | (some i, r) => (some i, r)
    | (none, r) => placeLoop g ilotId mins maxs existing n r

/-- `LayoutGenerator._place_random_ilot`: up to 100 attempts, `None` after. -/
def placeRandomIlot (g : Gen) (ilotId : ℕ) (mins maxs : ℚ) (existing : List Ilot)
    (r : Rng) : Option Ilot × Rng :=
  placeLoop g ilotId mins maxs existing 100 r

/-- The `for _ in range(count)` loop of `_create_random_layout` for one size
bucket: successful placements are appended and advance the id counter. -/
def placeCount (g : Gen) (mins maxs : ℚ) :
    ℕ → List Ilot → ℕ → Rng → List Ilot × ℕ × Rng
  | 0, ilots, nextId, r => (ilots, nextId, r)
  | n + 1, ilots, nextId, r =>
    match placeRandomIlot g nextId mins maxs ilots r with
    | (some i, r) => placeCount g mins maxs n (ilots ++ [i]) (nextId + 1) r
    | (none, r) => placeCount g mins maxs n ilots nextId r

/-- One size bucket of the `for size_config in size_distribution` loop of
`_create_random_layout`: `count = int(total_ilots * percentage / 100)` units
are attempted, threading the unit list, the id counter and the oracle. -/
def bucketStep (g : Gen) (totalIlots : ℕ) (acc : List Ilot × ℕ × Rng) (b : SizeBucket) :
    List Ilot × ℕ × Rng :=
  placeCount g b.min_size b.max_size
    ((pyInt ((totalIlots : ℚ) * b.percentage / 100)).toNat) acc.1 acc.2.1 acc.2.2

/-- `LayoutGenerator._create_random_layout`. -/
def createRandomLayout (g : Gen) (r : Rng) : Layout × Rng :=
  let avail := availableArea g
  let dist := effectiveSizeDistribution g.profile
  let totalIlots : ℕ := natMin 100 (pyInt (avail / 20)).toNat
  let res := dist.foldl (bucketStep g totalIlots) ([], 1, r)
  (⟨res.1, generateCorridors g res.1⟩, res.2.2)

/-- One returned ilot dict of `_layout_to_result`. -/
structure IlotData where
  id : ℕ
  x : ℚ
  y : ℚ
  width : ℚ
  height : ℚ
  area : ℚ
  room_type : String
deriving DecidableEq, Repr

/-- One returned corridor dict of `_layout_to_result`. -/
structure CorridorData where
  id : String
  x : ℚ
  y : ℚ
  width : ℚ
  height : ℚ
  corridor_width : ℚ
  connectedIlots : List ℕ
deriving DecidableEq, Repr

/-- The dict returned by `LayoutGenerator.generate_layout`. -/
structure ApiResult where
  ilots : List IlotData
  corridors : List CorridorData
  utilization_percentage : ℚ
  optimization_score : ℚ
deriving DecidableEq, Repr

/-- `LayoutGenerator._layout_to_result`. -/
def layoutToResult (g : Gen) (l : Layout) (score : ℚ) : ApiResult :=
  let ilotsData := l.ilots.map (fun i =>
    IlotData.mk i.id i.rect.x i.rect.y i.rect.width i.rect.height i.area i.room_type)
  let corridorsData := l.corridors.map (fun c =>
    CorridorData.mk c.id c.rect.x c.rect.y c.rect.width c.rect.height c.width c.connected_ilots)
  let totalIlotArea := (l.ilots.map Ilot.area).sum
  let avail := availableArea g
  let utilization := if 0 < avail then totalIlotArea / avail * 100 else 0
  ⟨ilotsData, corridorsData, utilization, score⟩

/-- Python `range(0, stop, 30)` over the truncated floor dimension, used by
`_greedy_placement`. -/
def pyRange30 (stop : ℕ) : List ℕ :=
  List.range' 0 ((stop + 29) / 30) 30

/-- One grid cell of `LayoutGenerator._greedy_placement`: once 50 ilots are
placed nothing further is attempted (the source `break`s out of the inner
loop), otherwise a random-size rectangle at the cell is validated. -/
def greedyStep (g : Gen) (acc : List Ilot × Rng) (cell : ℕ × ℕ) : List Ilot × Rng :=
  let (ilots, r) := acc
  if 50 ≤ ilots.length then acc
  else
    let (w, r) := r.next
    let (h, r) := r.next
    let rect : Rectangle := ⟨(cell.1 : ℚ), (cell.2 : ℚ), w, h⟩
    if isValidPlacement g rect ilots then
      (ilots ++ [⟨ilots.length + 1, rect, "standard", w * h, 15, 25⟩], r)
    else (ilots, r)

/-- `LayoutGenerator._greedy_placement`: row-major sweep of a 30-unit grid. -/
def greedyPlacement (g : Gen) (r : Rng) : ApiResult :=
  let cells := (pyRange30 (pyInt g.floor_plan.height).toNat).flatMap
    (fun y => (pyRange30 (pyInt g.floor_plan.width).toNat).map (fun x => (x, y)))
  let (ilots, _) := cells.foldl (greedyStep g) ([], r)
  let corridors := generateCorridors g ilots
  let score := evaluateFitness g ⟨ilots, corridors⟩
  layoutToResult g ⟨ilots, corridors⟩ score

/-- `LayoutGenerator._random_placement`. -/
def randomPlacement (g : Gen) (r : Rng) : ApiResult :=
  let (l, _) := createRandomLayout g r
  layoutToResult g l (evaluateFitness g l)

/-- Stable descending insertion (by score) used to embed
`scored_population.sort(key=lambda x: x[1], reverse=True)`: an earlier element
stays in front of every later element of equal score. -/
def insertDesc (x : Layout × ℚ) : List (Layout × ℚ) → List (Layout × ℚ)
  | [] => [x]
  | y :: ys => if y.2 ≤ x.2 then x :: y :: ys else y :: insertDesc x ys

/-- Python's stable sort with `reverse=True` on (layout, score) pairs. -/
def pySortDesc (l : List (Layout × ℚ)) : List (Layout × ℚ) :=
  l.foldr insertDesc []

/-- Python `max(tournament, key=lambda x: x[1])`: the first element of
maximal score (later ties do not displace it).  The empty-list default is
unreachable in the source (the tournament always has 5 members). -/
def pyMaxBySnd : List (Layout × ℚ) → Layout × ℚ
  | [] => (⟨[], []⟩, 0)
  | x :: xs => xs.foldl (fun m y => if m.2 < y.2 then y else m) x

/-- Index into the scored population drawn from one oracle value. -/
def drawIndex (q : ℚ) (n : ℕ) : ℕ :=
  (ratFloor q).toNat % n

/-- The `random.sample(scored_population, k)` draw: `k` oracle-chosen members
of the scored population.  A real sample consists of `k` distinct positions;
the oracle model ranges over all position sequences, a superset whose member
*values* include every real sample. -/
def drawSample (scored : List (Layout × ℚ)) : ℕ → Rng → List (Layout × ℚ) × Rng
  | 0, r => ([], r)
  | k + 1, r =>
    let (q, r) := r.next
    let e := scored.getD (drawIndex q scored.length) (⟨[], []⟩, 0)
    let (rest, r) := drawSample scored k r
    (e :: rest, r)

/-- `LayoutGenerator._tournament_selection`: sample
`min(5, len(scored))` members and return the first of maximal score. -/
def tournamentSelection (scored : List (Layout × ℚ)) (r : Rng) : Layout × Rng :=
  ((pyMaxBySnd (drawSample scored (min 5 scored.length) r).1).1,
   (drawSample scored (min 5 scored.length) r).2)

/-- `LayoutGenerator._crossover`: pool the parents' ilots and keep each one
that intersects no already-kept ilot; corridors are regenerated. -/
def crossover (g : Gen) (p1 p2 : Layout) : Layout :=
  let allIlots := p1.ilots ++ p2.ilots
  let finalIlots := allIlots.foldl
    (fun acc i => if acc.any (fun e => i.rect.intersects e.rect) then acc else acc ++ [i]) []
  ⟨finalIlots, generateCorridors g finalIlots⟩

/-- `LayoutGenerator._mutate`: perturb one randomly chosen ilot by an offset
drawn on each axis, keep the perturbation only if still valid against the
other ilots; corridors are regenerated either way. -/
def mutate (g : Gen) (ind : Layout) (r : Rng) : Layout × Rng :=
  match ind.ilots with
  | [] => (⟨[], generateCorridors g []⟩, r)
  | i0 :: _ =>
    let ilots := ind.ilots
    let (q, r) := r.next
    let idx := drawIndex q ilots.length
    let i := ilots.getD idx i0
    let (dx, r) := r.next
    let (dy, r) := r.next
    let newRect : Rectangle := ⟨i.rect.x + dx, i.rect.y + dy, i.rect.width, i.rect.height⟩
    let others := ilots.take idx ++ ilots.drop (idx + 1)
    let ilots2 :=
      if isValidPlacement g newRect others then
        ilots.set idx ⟨i.id, newRect, i.room_type, i.area, i.min_size, i.max_size⟩
      else ilots
    (⟨ilots2, generateCorridors g ilots2⟩, r)

/-- Population size of `_genetic_algorithm`. -/
def populationSize : ℕ := 50

/-- The state carried across generations of `_genetic_algorithm`. -/
structure GAState where
  population : List Layout
  best : Option Layout
  best_score : ℚ
  rng : Rng

/-- The offspring loop of `_genetic_algorithm`
(`while len(new_population) < population_size`). -/
def reproduce (g : Gen) (scored : List (Layout × ℚ)) :
    ℕ → Rng → List Layout × Rng
  | 0, r => ([], r)
  | k + 1, r =>
    let (p1, r) := tournamentSelection scored r
    let (p2, r) := tournamentSelection scored r
    let child := crossover g p1 p2
    let (coin, r) := r.next
    let (child, r) := if coin < 1/10 then mutate g child r else (child, r)
    let (rest, r) := reproduce g scored k r
    (child :: rest, r)

/-- One generation of `_genetic_algorithm`: evaluate, stably sort descending,
update the best-ever pair on strict improvement, keep the top 20 percent and
fill the rest with offspring. -/
def gaStep (g : Gen) (s : GAState) : GAState :=
  let scored := s.population.map (fun ind => (ind, evaluateFitness g ind))
  let sorted := pySortDesc scored
  let (best, bestScore) :=
    match sorted with
    | [] => (s.best, s.best_score)
    | top :: _ => if s.best_score < top.2 then (some top.1, top.2) else (s.best, s.best_score)
  let elite := (sorted.take (populationSize / 5)).map Prod.fst
  let (children, r) := reproduce g sorted (populationSize - elite.length) s.rng
  ⟨elite ++ children, best, bestScore, r⟩

/-- The generation loop (`for generation in range(generations)`). -/
def gaRun (g : Gen) : ℕ → GAState → GAState
  | 0, s => s
  | n + 1, s => gaRun g n (gaStep g s)

/-- Building the initial population of `_genetic_algorithm`. -/
def buildPop (g : Gen) : ℕ → Rng → List Layout × Rng
  | 0, r => ([], r)
  | n + 1, r =>
    let (l, r) := createRandomLayout g r
    let (rest, r) := buildPop g n r
    (l :: rest, r)

/-- The state entering generation 0: the random initial population, no
best-ever layout (`best_layout = None`), `best_score = 0`. -/
def initGAState (g : Gen) (r : Rng) : GAState :=
  let (pop, r) := buildPop g populationSize r
  ⟨pop, none, 0, r⟩

/-- The final `return self._layout_to_result(best_layout, best_score)` of
`_genetic_algorithm`.  When `best_layout` is still `None` (which happens
whenever no individual ever scores above 0), `_layout_to_result(None, 0)`
raises a `TypeError`; the embedding returns `none` for that crash. -/
def finishGA (g : Gen) (s : GAState) : Option ApiResult :=
  match s.best with
  | some l => some (layoutToResult g l s.best_score)
  | none => none

/-- `LayoutGenerator._genetic_algorithm`. -/
def geneticAlgorithm (g : Gen) (r : Rng) : Option ApiResult :=
  finishGA g (gaRun g 100 (initGAState g r))

/-- `LayoutGenerator.generate_layout`: algorithm dispatch, unknown names fall
back to the genetic algorithm. -/
def generateLayout (g : Gen) (algorithm : String) (r : Rng) : Option ApiResult :=
  if algorithm = "genetic" then geneticAlgorithm g r
  else if algorithm = "greedy" then some (greedyPlacement g r)
  else if algorithm = "random" then some (randomPlacement g r)
  else geneticAlgorithm g r

/-- A point of the closed box of a rectangle (used to state what
`intersects` decides). -/
def inClosedBox (r : Rectangle) (px py : ℚ) : Prop :=
  r.x ≤ px ∧ px ≤ r.x + r.width ∧ r.y ≤ py ∧ py ≤ r.y + r.height

theorem intersects_iff_le (a b : Rectangle) :
    a.intersects b = true ↔
      (b.x ≤ a.x + a.width ∧ a.x ≤ b.x + b.width ∧
       b.y ≤ a.y + a.height ∧ a.y ≤ b.y + b.height) := by
  simp [Rectangle.intersects, not_lt, and_assoc]

/-- C9: `Rectangle.intersects` decides closed-box intersection for
rectangles with non-negative extents (touching counts), and is symmetric. -/
theorem C9_intersects_closed_and_symmetric :
    ∀ a b : Rectangle,
      (0 ≤ a.width → 0 ≤ a.height → 0 ≤ b.width → 0 ≤ b.height →
        (a.intersects b = true ↔ ∃ px py : ℚ, inClosedBox a px py ∧ inClosedBox b px py)) ∧
      a.intersects b = b.intersects a := by
  intro a b
  constructor
  · intro haw hah hbw hbh
    rw [intersects_iff_le]
    constructor
    · rintro ⟨h1, h2, h3, h4⟩
      refine ⟨max a.x b.x, max a.y b.y, ⟨le_max_left _ _, ?_, le_max_left _ _, ?_⟩,
        ⟨le_max_right _ _, ?_, le_max_right _ _, ?_⟩⟩ <;>
        · apply max_le <;> linarith
    · rintro ⟨px, py, ⟨ha1, ha2, ha3, ha4⟩, ⟨hb1, hb2, hb3, hb4⟩⟩
      exact ⟨le_trans hb1 ha2, le_trans ha1 hb2, le_trans hb3 ha4, le_trans ha3 hb4⟩
  · rw [Bool.eq_iff_iff, intersects_iff_le, intersects_iff_le]
    tauto

/-- Witness for C9 on concrete rectangles. -/
theorem C9_witness :
    (((Rectangle.mk 0 0 2 2).intersects ⟨2, 2, 3, 3⟩ = true ↔
      ∃ px py : ℚ, inClosedBox ⟨0, 0, 2, 2⟩ px py ∧ inClosedBox ⟨2, 2, 3, 3⟩ px py) ∧
     (Rectangle.mk 0 0 2 2).intersects ⟨2, 2, 3, 3⟩ = (Rectangle.mk 2 2 3 3).intersects ⟨0, 0, 2, 2⟩) :=
  ⟨(C9_intersects_closed_and_symmetric ⟨0, 0, 2, 2⟩ ⟨2, 2, 3, 3⟩).1
      (by norm_num) (by norm_num) (by norm_num) (by norm_num),
   (C9_intersects_closed_and_symmetric ⟨0, 0, 2, 2⟩ ⟨2, 2, 3, 3⟩).2⟩

/-- C10: a falsy (absent or empty) `size_distribution` makes the
size-distribution term constantly 1, so its weighted contribution is the full
0.15, while unit creation falls back on the built-in default distribution. -/
theorem C10_falsy_distribution_scores_one :
    ∀ (fp : FloorPlan) (p : IlotProfile) (zones : List Zone),
      (p.size_distribution = none ∨ p.size_distribution = some []) →
      (∀ ilots : List Ilot, evalSizeDistribution (initGen fp p zones) ilots = 1) ∧
      effectiveSizeDistribution p = defaultSizeDistribution ∧
      (∀ ilots : List Ilot,
        evalSizeDistribution (initGen fp p zones) ilots * (15/100) = 15/100) := by
  intro fp p zones h
  have hprof : (initGen fp p zones).profile = p := rfl
  rcases h with h | h
  · refine ⟨fun ilots => ?_, ?_, fun ilots => ?_⟩ <;>
      simp [evalSizeDistribution, effectiveSizeDistribution, hprof, h, defaultSizeDistribution]
  · refine ⟨fun ilots => ?_, ?_, fun ilots => ?_⟩ <;>
      simp [evalSizeDistribution, effectiveSizeDistribution, hprof, h, defaultSizeDistribution]

/-- Witness for C10 at a concrete profile with `None` distribution. -/
theorem C10_witness :
    (∀ ilots : List Ilot,
      evalSizeDistribution (initGen ⟨10, 10⟩ ⟨none, 3/2⟩ []) ilots = 1) ∧
    effectiveSizeDistribution ⟨none, 3/2⟩ = defaultSizeDistribution ∧
    (∀ ilots : List Ilot,
      evalSizeDistribution (initGen ⟨10, 10⟩ ⟨none, 3/2⟩ []) ilots * (15/100) = 15/100) :=
  C10_falsy_distribution_scores_one ⟨10, 10⟩ ⟨none, 3/2⟩ [] (Or.inl rfl)

/-- The size-distribution adherence score as the specification words it: each
bucket's actual fraction is `(units whose first matching bucket is this one) /
(units whose area falls into some bucket's range)` — units matching no bucket
are excluded from the denominator. -/
def specSizeDistributionExcl (dist : List SizeBucket) (ilots : List Ilot) : ℚ :=
  let matched := ilots.countP (fun i =>
    dist.any (fun b => decide (b.min_size ≤ i.area) && decide (i.area ≤ b.max_size)))
  let score := dist.foldl (fun s b =>
    let cnt := ilots.countP (fun i => getSizeRange dist i.area = some (b.min_size, b.max_size))
    let actualPct : ℚ := if 0 < matched then (cnt : ℚ) / (matched : ℚ) else 0
    s + ratMax 0 (1 - ratAbs (actualPct - b.percentage / 100) * 2)) 0
  score / (dist.length : ℚ)

/-- The size-distribution adherence score written directly with counts: each
bucket's actual fraction is `(units whose first matching bucket is this one) /
(total unit count)`. -/
def specSizeDistributionTotal (dist : List SizeBucket) (ilots : List Ilot) : ℚ :=
  let total := ilots.length
  let score := dist.foldl (fun s b =>
    let cnt := ilots.countP (fun i => getSizeRange dist i.area = some (b.min_size, b.max_size))
    let actualPct : ℚ := if 0 < total then (cnt : ℚ) / (total : ℚ) else 0
    s + ratMax 0 (1 - ratAbs (actualPct - b.percentage / 100) * 2)) 0
  score / (dist.length : ℚ)

theorem dictGet_bump (k' k : Option (ℚ × ℚ)) (m : List (Option (ℚ × ℚ) × ℕ)) :
    dictGet (dictBump k' m) k = dictGet m k + (if k' = k then 1 else 0) := by
  induction m with
  | nil =>
    by_cases h : k' = k <;> simp [dictBump, dictGet, h]
  | cons e rest ih =>
    obtain ⟨k0, n0⟩ := e
    by_cases h0 : k0 = k'
    · subst h0
      by_cases h : k0 = k <;> simp [dictBump, dictGet, h]
    · by_cases h : k0 = k
      · have h0' : ¬ k = k' := fun hh => h0 (h.trans hh)
        have hne : ¬ k' = k := fun hh => h0' hh.symm
        simp [dictBump, dictGet, h0, h, h0', hne]
      · simp [dictBump, dictGet, h0, h, ih]

theorem dictGet_fold (key : Ilot → Option (ℚ × ℚ)) (k : Option (ℚ × ℚ)) :
    ∀ (ilots : List Ilot) (m : List (Option (ℚ × ℚ) × ℕ)),
      dictGet (ilots.foldl (fun m i => dictBump (key i) m) m) k
        = dictGet m k + ilots.countP (fun i => key i = k) := by
  intro ilots
  induction ilots with
  | nil => intro m; simp
  | cons i t ih =>
    intro m
    simp only [List.foldl_cons, List.countP_cons, ih, dictGet_bump]
    by_cases h : key i = k <;> simp [h] <;> try omega

theorem foldl_funext {α β : Type} (f f' : β → α → β) (l : List α) (init : β)
    (h : ∀ s a, f s a = f' s a) : l.foldl f init = l.foldl f' init := by
  induction l generalizing init with
  | nil => rfl
  | cons a t ih => simp only [List.foldl_cons, h, ih]

/-- C6 amended: for a non-empty profile distribution the code's
size-distribution score equals the direct formula whose denominator is the
total unit count (units matching no bucket stay in the denominator). -/
theorem C6_amended_total_denominator :
    ∀ (g : Gen) (b0 : SizeBucket) (bs : List SizeBucket) (ilots : List Ilot),
      g.profile.size_distribution = some (b0 :: bs) →
      evalSizeDistribution g ilots = specSizeDistributionTotal (b0 :: bs) ilots := by
  intro g b0 bs ilots h
  unfold evalSizeDistribution specSizeDistributionTotal
  rw [h]
  apply congrArg (fun q : ℚ => q / (((b0 :: bs).length : ℕ) : ℚ))
  apply foldl_funext
  intro s b
  have hd := dictGet_fold (fun i => getSizeRange (b0 :: bs) i.area)
    (some (b.min_size, b.max_size)) ilots []
  simp only [dictGet, Nat.zero_add] at hd
  simp only [hd]

/-- The concrete generator of the C6 counterexample: one bucket [15, 25] at
100 percent. -/
def g6 : Gen := initGen ⟨10, 10⟩ ⟨some [⟨15, 25, 100⟩], 3/2⟩ []

/-- Two units, one inside the only bucket (area 20) and one matching no
bucket (area 100). -/
def ilots6 : List Ilot :=
  [⟨1, ⟨0, 0, 4, 5⟩, "standard", 20, 15, 25⟩, ⟨2, ⟨5, 5, 1, 1⟩, "standard", 100, 15, 25⟩]

/-- C6 counterexample: with a unit matching no bucket, the code divides by
the total unit count (score 0) while the spec's excluded-denominator rule
gives score 1. -/
theorem C6_counterexample :
    evalSizeDistribution g6 ilots6 = 0 ∧
    specSizeDistributionExcl [⟨15, 25, 100⟩] ilots6 = 1 ∧
    evalSizeDistribution g6 ilots6 ≠ specSizeDistributionExcl [⟨15, 25, 100⟩] ilots6 := by
  have h1 : evalSizeDistribution g6 ilots6 = 0 := by with_unfolding_all rfl
  have h2 : specSizeDistributionExcl [⟨15, 25, 100⟩] ilots6 = 1 := by with_unfolding_all rfl
  exact ⟨h1, h2, by rw [h1, h2]; norm_num⟩

/-- Witness for the amended C6 at the concrete counterexample input. -/
theorem C6_witness :
    evalSizeDistribution g6 ilots6 = specSizeDistributionTotal [⟨15, 25, 100⟩] ilots6 :=
  C6_amended_total_denominator g6 ⟨15, 25, 100⟩ [] ilots6 rfl

theorem ratMax_zero_nonneg (x : ℚ) : 0 ≤ ratMax 0 x := by
  unfold ratMax
  split <;> linarith

theorem ratMin_one_le_one (x : ℚ) : ratMin 1 x ≤ 1 := by
  unfold ratMin
  split <;> linarith

theorem ratMin_one_nonneg (x : ℚ) (h : 0 ≤ x) : 0 ≤ ratMin 1 x := by
  unfold ratMin
  split <;> linarith

theorem availableArea_nonneg (g : Gen) : 0 ≤ availableArea g :=
  ratMax_zero_nonneg _

theorem foldl_add_nonneg (l : List SizeBucket) (f : ℚ → SizeBucket → ℚ)
    (h : ∀ s b, 0 ≤ s → 0 ≤ f s b) :
    ∀ init, 0 ≤ init → 0 ≤ l.foldl f init := by
  induction l with
  | nil => intro init h0; simpa using h0
  | cons b t ih => intro init h0; exact ih _ (h init b h0)

theorem evalSizeDistribution_nonneg (g : Gen) (ilots : List Ilot) :
    0 ≤ evalSizeDistribution g ilots := by
  unfold evalSizeDistribution
  match g.profile.size_distribution with
  | none => norm_num
  | some [] => norm_num
  | some (b0 :: bs) =>
    apply div_nonneg
    · apply foldl_add_nonneg
      · intro s b hs
        have := ratMax_zero_nonneg (1 - ratAbs ((if 0 < ilots.length then
          (dictGet (ilots.foldl (fun m i => dictBump (getSizeRange (b0 :: bs) i.area) m) [])
            (some (b.min_size, b.max_size)) : ℚ) / (ilots.length : ℚ) else 0) - b.percentage / 100) * 2)
        positivity
      · norm_num
    · positivity

theorem evalRegularity_nonneg (ilots : List Ilot) : 0 ≤ evalRegularity ilots := by
  unfold evalRegularity
  split
  · norm_num
  · apply ratMin_one_nonneg
    split
    · positivity
    · norm_num

/-- C2: with non-negative rectangle extents and non-negative area fields the
fitness score lies in [0, 1], and the empty unit list scores exactly 0. -/
theorem C2_fitness_score_bounds :
    ∀ (g : Gen) (l : Layout),
      (∀ i ∈ l.ilots, 0 ≤ i.area ∧ 0 ≤ i.rect.width ∧ 0 ≤ i.rect.height) →
      (∀ c ∈ l.corridors, 0 ≤ c.rect.width ∧ 0 ≤ c.rect.height) →
      (0 ≤ evaluateFitness g l ∧ evaluateFitness g l ≤ 1) ∧
      (l.ilots = [] → evaluateFitness g l = 0) := by
  intro g l hi _hc
  have hempty : l.ilots = [] → evaluateFitness g l = 0 := by
    intro h
    unfold evaluateFitness
    rw [h]
  refine ⟨?_, hempty⟩
  rcases hl : l.ilots with _ | ⟨a, as⟩
  · rw [hempty hl]; norm_num
  · have hfit : evaluateFitness g l =
        ratMin 1 ((if 0 < availableArea g then (l.ilots.map Ilot.area).sum / availableArea g else 0) * (3/10)
          + ratMax 0 (1 - (if 0 < availableArea g then
              ((l.corridors.map (fun c => c.rect.area)).sum) / availableArea g else 0) * 2) * (2/10)
          + (((l.corridors.flatMap Corridor.connected_ilots).dedup.length : ℚ) / (l.ilots.length : ℚ)) * (25/100)
          + evalSizeDistribution g l.ilots * (15/100)
          + evalRegularity l.ilots * (1/10)) := by
      unfold evaluateFitness
      rw [hl]
    have hsum : 0 ≤ (l.ilots.map Ilot.area).sum := by
      apply List.sum_nonneg
      intro x hx
      obtain ⟨i, hmem, hix⟩ := List.mem_map.mp hx
      exact hix ▸ (hi i hmem).1
    have hterm1 : 0 ≤ (if 0 < availableArea g then (l.ilots.map Ilot.area).sum / availableArea g else 0) := by
      split
      · positivity
      · norm_num
    have hterm2 := ratMax_zero_nonneg (1 - (if 0 < availableArea g then
        ((l.corridors.map (fun c => c.rect.area)).sum) / availableArea g else 0) * 2)
    have hterm3 : 0 ≤ (((l.corridors.flatMap Corridor.connected_ilots).dedup.length : ℚ) / (l.ilots.length : ℚ)) := by
      positivity
    have hterm4 := evalSizeDistribution_nonneg g l.ilots
    have hterm5 := evalRegularity_nonneg l.ilots
    rw [hfit]
    constructor
    · apply ratMin_one_nonneg
      have h1 : (0:ℚ) ≤ (if 0 < availableArea g then (l.ilots.map Ilot.area).sum / availableArea g else 0) * (3/10) := by positivity
      positivity
    · exact ratMin_one_le_one _

/-- Concrete generator for the C2 witness. -/
def gW2 : Gen := initGen ⟨10, 10⟩ ⟨none, 3/2⟩ []

/-- Concrete one-unit layout for the C2 witness. -/
def layW2 : Layout := ⟨[⟨1, ⟨0, 0, 2, 2⟩, "standard", 4, 1, 5⟩], []⟩

/-- Witness for C2 at a concrete layout. -/
theorem C2_witness :
    (0 ≤ evaluateFitness gW2 layW2 ∧ evaluateFitness gW2 layW2 ≤ 1) ∧
    (layW2.ilots = [] → evaluateFitness gW2 layW2 = 0) :=
  C2_fitness_score_bounds gW2 layW2
    (by
      intro i hi
      obtain rfl := List.mem_singleton.mp hi
      refine ⟨by norm_num, by norm_num, by norm_num⟩)
    (by intro c hc; simp [layW2] at hc)

theorem finishGA_some (g : Gen) (s : GAState) (res : ApiResult)
    (h : finishGA g s = some res) :
    ∃ l, s.best = some l ∧ res = layoutToResult g l s.best_score := by
  unfold finishGA at h
  generalize hb : s.best = ob at h
  rcases ob with _ | l
  · exact absurd h (by simp)
  · exact ⟨l, rfl, (Option.some.inj h).symm⟩

theorem gaStep_best_mono (g : Gen) (s : GAState) :
    s.best_score ≤ (gaStep g s).best_score := by
  unfold gaStep
  rcases h : pySortDesc (s.population.map (fun ind => (ind, evaluateFitness g ind))) with _ | ⟨top, rest⟩ <;>
    simp only [h]
  · exact le_refl _
  · split
    · next hlt => exact le_of_lt hlt
    · exact le_refl _

theorem gaRun_add (g : Gen) (a b : ℕ) (s : GAState) :
    gaRun g (a + b) s = gaRun g a (gaRun g b s) := by
  induction b generalizing s with
  | zero => rfl
  | succ b ih =>
    rw [Nat.add_succ]
    show gaRun g (a + b) (gaStep g s) = _
    rw [ih]
    rfl

theorem gaRun_best_mono (g : Gen) (k : ℕ) (s : GAState) :
    s.best_score ≤ (gaRun g k s).best_score := by
  induction k generalizing s with
  | zero => exact le_refl _
  | succ k ih => exact le_trans (gaStep_best_mono g s) (ih (gaStep g s))

/-- C8: the tracked best-ever score is non-decreasing across generations, and
the genetic algorithm's returned result is built from the tracked best-ever
layout and score. -/
theorem C8_best_score_monotone :
    ∀ (g : Gen) (r : Rng) (n m : ℕ), n ≤ m →
      (gaRun g n (initGAState g r)).best_score ≤ (gaRun g m (initGAState g r)).best_score ∧
      (∀ res, geneticAlgorithm g r = some res →
        ∃ l, (gaRun g 100 (initGAState g r)).best = some l ∧
          res = layoutToResult g l (gaRun g 100 (initGAState g r)).best_score) := by
  intro g r n m hnm
  constructor
  · have hm : m = (m - n) + n := by omega
    rw [hm, gaRun_add]
    exact gaRun_best_mono g (m - n) _
  · intro res hres
    unfold geneticAlgorithm at hres
    exact finishGA_some g (gaRun g 100 (initGAState g r)) res hres

/-- Witness for C8 at a concrete generator, oracle and generation pair. -/
theorem C8_witness :
    (gaRun gW2 1 (initGAState gW2 ⟨fun _ => 1/2, 0⟩)).best_score ≤
      (gaRun gW2 3 (initGAState gW2 ⟨fun _ => 1/2, 0⟩)).best_score ∧
    (∀ res, geneticAlgorithm gW2 ⟨fun _ => 1/2, 0⟩ = some res →
      ∃ l, (gaRun gW2 100 (initGAState gW2 ⟨fun _ => 1/2, 0⟩)).best = some l ∧
        res = layoutToResult gW2 l (gaRun gW2 100 (initGAState gW2 ⟨fun _ => 1/2, 0⟩)).best_score) :=
  C8_best_score_monotone gW2 ⟨fun _ => 1/2, 0⟩ 1 3 (by norm_num)

theorem intersects_comm (a b : Rectangle) : a.intersects b = b.intersects a := by
  rw [Bool.eq_iff_iff, intersects_iff_le, intersects_iff_le]
  tauto

/-- Per-unit admissibility: inside the floor bounds and intersecting no
restricted or entrance/exit rectangle. -/
def UnitOk (g : Gen) (i : Ilot) : Prop :=
  (0 ≤ i.rect.x ∧ 0 ≤ i.rect.y ∧
   i.rect.x + i.rect.width ≤ g.floor_plan.width ∧
   i.rect.y + i.rect.height ≤ g.floor_plan.height) ∧
  (∀ z ∈ g.restricted_areas, i.rect.intersects z = false) ∧
  (∀ z ∈ g.entrance_areas, i.rect.intersects z = false)

/-- The no-overlap invariant on a unit list: pairwise non-intersecting and
every unit admissible. -/
def GoodIlots (g : Gen) (l : List Ilot) : Prop :=
  l.Pairwise (fun a b => a.rect.intersects b.rect = false) ∧ ∀ i ∈ l, UnitOk g i

theorem GoodIlots_nil (g : Gen) : GoodIlots g [] :=
  ⟨List.Pairwise.nil, by simp⟩

theorem isValidPlacement_true_iff (g : Gen) (rect : Rectangle) (existing : List Ilot) :
    isValidPlacement g rect existing = true ↔
      ((0 ≤ rect.x ∧ 0 ≤ rect.y ∧
        rect.x + rect.width ≤ g.floor_plan.width ∧
        rect.y + rect.height ≤ g.floor_plan.height) ∧
       (∀ i ∈ existing, rect.intersects i.rect = false) ∧
       (∀ z ∈ g.restricted_areas, rect.intersects z = false) ∧
       (∀ z ∈ g.entrance_areas, rect.intersects z = false)) := by
  simp only [isValidPlacement, Bool.and_eq_true, Bool.not_eq_true', Bool.or_eq_false_iff,
    decide_eq_false_iff_not, not_lt, List.all_eq_true, Bool.not_eq_true]
  tauto

theorem UnitOk_of_valid (g : Gen) (i : Ilot) (existing : List Ilot)
    (h : isValidPlacement g i.rect existing = true) : UnitOk g i := by
  rw [isValidPlacement_true_iff] at h
  exact ⟨h.1, h.2.2.1, h.2.2.2⟩

theorem GoodIlots_append (g : Gen) (ilots : List Ilot) (i : Ilot)
    (hg : GoodIlots g ilots) (h : isValidPlacement g i.rect ilots = true) :
    GoodIlots g (ilots ++ [i]) := by
  rw [isValidPlacement_true_iff] at h
  constructor
  · rw [List.pairwise_append]
    refine ⟨hg.1, List.pairwise_singleton _ _, ?_⟩
    intro a ha b hb
    rw [List.mem_singleton] at hb
    subst hb
    rw [intersects_comm]
    exact h.2.1 a ha
  · intro j hj
    rcases List.mem_append.mp hj with hj | hj
    · exact hg.2 j hj
    · rw [List.mem_singleton] at hj
      subst hj
      exact ⟨h.1, h.2.2.1, h.2.2.2⟩

theorem placeAttempt_some (g : Gen) (ilotId : ℕ) (mins maxs : ℚ) (existing : List Ilot)
    (r r2 : Rng) (i : Ilot)
    (h : placeAttempt g ilotId mins maxs existing r = (some i, r2)) :
    isValidPlacement g i.rect existing = true := by
  simp only [placeAttempt, Rng.next] at h
  split at h
  · next hvalid =>
    rw [Prod.mk.injEq] at h
    obtain ⟨h1, _⟩ := h
    injection h1 with h1
    subst h1
    exact hvalid
  · exact absurd h (by simp)

theorem placeLoop_zero (g : Gen) (ilotId : ℕ) (mins maxs : ℚ) (existing : List Ilot)
    (r : Rng) :
    placeLoop g ilotId mins maxs existing 0 r = (none, r) := rfl

theorem placeLoop_succ (g : Gen) (ilotId : ℕ) (mins maxs : ℚ) (existing : List Ilot)
    (n : ℕ) (r : Rng) :
    placeLoop g ilotId mins maxs existing (n + 1) r =
      match placeAttempt g ilotId mins maxs existing r with
      | (some i, r2) => (some i, r2)
      | (none, r2) => placeLoop g ilotId mins maxs existing n r2 := rfl

theorem placeLoop_some (g : Gen) (ilotId : ℕ) (mins maxs : ℚ) (existing : List Ilot) :
    ∀ (fuel : ℕ) (r r2 : Rng) (i : Ilot),
      placeLoop g ilotId mins maxs existing fuel r = (some i, r2) →
      isValidPlacement g i.rect existing = true := by
  intro fuel
  induction fuel with
  | zero =>
    intro r r2 i h
    rw [placeLoop_zero] at h
    exact absurd h (by simp)
  | succ n ih =>
    intro r r2 i h
    rw [placeLoop_succ] at h
    rcases ha : placeAttempt g ilotId mins maxs existing r with ⟨oi, r'⟩
    rw [ha] at h
    rcases oi with _ | j
    · exact ih r' r2 i h
    · have h' : (some j, r') = (some i, r2) := h
      rw [Prod.mk.injEq] at h'
      obtain ⟨h1, _⟩ := h'
      injection h1 with h1
      subst h1
      exact placeAttempt_some g ilotId mins maxs existing r r' j ha

theorem placeCount_zero (g : Gen) (mins maxs : ℚ) (ilots : List Ilot) (nid : ℕ) (r : Rng) :
    placeCount g mins maxs 0 ilots nid r = (ilots, nid, r) := rfl

theorem placeCount_succ (g : Gen) (mins maxs : ℚ) (n : ℕ) (ilots : List Ilot) (nid : ℕ) (r : Rng) :
    placeCount g mins maxs (n + 1) ilots nid r =
      match placeRandomIlot g nid mins maxs ilots r with
      | (some i, r2) => placeCount g mins maxs n (ilots ++ [i]) (nid + 1) r2
      | (none, r2) => placeCount g mins maxs n ilots nid r2 := rfl

theorem placeCount_good (g : Gen) (mins maxs : ℚ) :
    ∀ (n : ℕ) (ilots : List Ilot) (nid : ℕ) (r : Rng),
      GoodIlots g ilots → GoodIlots g (placeCount g mins maxs n ilots nid r).1 := by
  intro n
  induction n with
  | zero => intro ilots nid r hg; rw [placeCount_zero]; exact hg
  | succ n ih =>
    intro ilots nid r hg
    rw [placeCount_succ]
    rcases ha : placeRandomIlot g nid mins maxs ilots r with ⟨oi, r'⟩
    rcases oi with _ | i
    · exact ih ilots nid r' hg
    · exact ih (ilots ++ [i]) (nid + 1) r'
        (GoodIlots_append g ilots i hg (placeLoop_some g nid mins maxs ilots 100 r r' i ha))

theorem foldl_bucketStep_good (g : Gen) (totalIlots : ℕ) :
    ∀ (dist : List SizeBucket) (acc : List Ilot × ℕ × Rng),
      GoodIlots g acc.1 → GoodIlots g (dist.foldl (bucketStep g totalIlots) acc).1 := by
  intro dist
  induction dist with
  | nil => intro acc hg; exact hg
  | cons b t ih =>
    intro acc hg
    rw [List.foldl_cons]
    exact ih _ (placeCount_good g b.min_size b.max_size _ acc.1 acc.2.1 acc.2.2 hg)

theorem createRandomLayout_good (g : Gen) (r : Rng) :
    GoodIlots g (createRandomLayout g r).1.ilots :=
  foldl_bucketStep_good g _ _ ([], 1, r) (GoodIlots_nil g)

theorem crossover_dedup_good (g : Gen) :
    ∀ (pool : List Ilot), (∀ i ∈ pool, UnitOk g i) →
      ∀ acc, GoodIlots g acc →
        GoodIlots g (pool.foldl (fun acc i =>
          if acc.any (fun e => i.rect.intersects e.rect) then acc else acc ++ [i]) acc) := by
  intro pool
  induction pool with
  | nil => intro _ acc hg; exact hg
  | cons i t ih =>
    intro hpool acc hg
    rw [List.foldl_cons]
    by_cases h : acc.any (fun e => i.rect.intersects e.rect) = true
    · rw [if_pos h]
      exact ih (fun j hj => hpool j (List.mem_cons_of_mem i hj)) acc hg
    · rw [if_neg h]
      refine ih (fun j hj => hpool j (List.mem_cons_of_mem i hj)) (acc ++ [i]) ?_
      rw [Bool.not_eq_true] at h
      rw [List.any_eq_false] at h
      constructor
      · rw [List.pairwise_append]
        refine ⟨hg.1, List.pairwise_singleton _ _, ?_⟩
        intro a ha b hb
        rw [List.mem_singleton] at hb
        subst hb
        rw [intersects_comm]
        exact Bool.eq_false_iff.mpr (h a ha)
      · intro j hj
        rcases List.mem_append.mp hj with hj | hj
        · exact hg.2 j hj
        · rw [List.mem_singleton] at hj
          subst hj
          exact hpool j (List.mem_cons_self _ _)

theorem crossover_good (g : Gen) (p1 p2 : Layout)
    (h1 : ∀ i ∈ p1.ilots, UnitOk g i) (h2 : ∀ i ∈ p2.ilots, UnitOk g i) :
    GoodIlots g (crossover g p1 p2).ilots := by
  refine crossover_dedup_good g (p1.ilots ++ p2.ilots) ?_ [] (GoodIlots_nil g)
  intro i hi
  rcases List.mem_append.mp hi with hi | hi
  · exact h1 i hi
  · exact h2 i hi

theorem GoodIlots_set (g : Gen) :
    ∀ (l : List Ilot) (idx : ℕ) (u : Ilot),
      GoodIlots g l → UnitOk g u →
      (∀ a ∈ l.take idx ++ l.drop (idx + 1), u.rect.intersects a.rect = false) →
      GoodIlots g (l.set idx u) := by
  intro l
  induction l with
  | nil => intro idx u hg _ _; exact hg
  | cons x t ih =>
    intro idx u hg hu hsep
    rcases idx with _ | k
    · rw [List.set_cons_zero]
      constructor
      · rw [List.pairwise_cons]
        refine ⟨?_, hg.1.of_cons⟩
        intro b hb
        exact hsep b (by simpa using hb)
      · intro j hj
        rcases List.mem_cons.mp hj with hj | hj
        · subst hj; exact hu
        · exact hg.2 j (List.mem_cons_of_mem x hj)
    · rw [List.set_cons_succ]
      have hxu : u.rect.intersects x.rect = false := by
        apply hsep
        rw [List.mem_append]
        left
        rw [List.take_succ_cons]
        exact List.mem_cons_self x _
      have htail : GoodIlots g t := ⟨hg.1.of_cons, fun j hj => hg.2 j (List.mem_cons_of_mem x hj)⟩
      have hsep' : ∀ a ∈ t.take k ++ t.drop (k + 1), u.rect.intersects a.rect = false := by
        intro a ha
        apply hsep
        rw [List.take_succ_cons, List.drop_succ_cons]
        rw [List.mem_append] at ha ⊢
        rcases ha with ha | ha
        · left; exact List.mem_cons_of_mem x ha
        · right; exact ha
      constructor
      · rw [List.pairwise_cons]
        refine ⟨?_, (ih k u htail hu hsep').1⟩
        intro b hb
        rcases List.mem_or_eq_of_mem_set hb with hb | hb
        · exact List.rel_of_pairwise_cons hg.1 hb
        · subst hb
          rw [intersects_comm]
          exact hxu
      · intro j hj
        rcases List.mem_cons.mp hj with hj | hj
        · subst hj; exact hg.2 j (List.mem_cons_self _ _)
        · exact (ih k u htail hu hsep').2 j hj

theorem mutate_good (g : Gen) (ind : Layout) (r : Rng) (hg : GoodIlots g ind.ilots) :
    GoodIlots g (mutate g ind r).1.ilots := by
  unfold mutate
  rcases heq : ind.ilots with _ | ⟨i0, t⟩
  · exact GoodIlots_nil g
  · rw [heq] at hg
    simp only [Rng.next]
    split
    · next hvalid =>
      apply GoodIlots_set g (i0 :: t) _ _ hg
      · exact UnitOk_of_valid g _ _ hvalid
      · intro a ha
        exact ((isValidPlacement_true_iff ..).mp hvalid).2.1 a ha
    · exact hg

theorem greedyStep_good (g : Gen) (acc : List Ilot × Rng) (cell : ℕ × ℕ)
    (hg : GoodIlots g acc.1) : GoodIlots g (greedyStep g acc cell).1 := by
  obtain ⟨ilots, r⟩ := acc
  unfold greedyStep
  simp only [Rng.next]
  split
  · exact hg
  · split
    · next hvalid => exact GoodIlots_append g _ _ hg hvalid
    · exact hg

theorem greedy_fold_good (g : Gen) :
    ∀ (cells : List (ℕ × ℕ)) (acc : List Ilot × Rng), GoodIlots g acc.1 →
      GoodIlots g (cells.foldl (greedyStep g) acc).1 := by
  intro cells
  induction cells with
  | nil => intro acc hg; exact hg
  | cons c t ih =>
    intro acc hg
    rw [List.foldl_cons]
    exact ih _ (greedyStep_good g acc c hg)

/-- The rectangle a returned ilot dict describes. -/
def dataRect (d : IlotData) : Rectangle := ⟨d.x, d.y, d.width, d.height⟩

/-- The no-overlap invariant on a returned result: pairwise non-intersecting
unit rectangles, every unit inside the floor bounds, and no unit intersecting
any restricted or entrance/exit zone rectangle. -/
def ResultOk (g : Gen) (res : ApiResult) : Prop :=
  res.ilots.Pairwise (fun a b => (dataRect a).intersects (dataRect b) = false) ∧
  ∀ d ∈ res.ilots,
    (0 ≤ d.x ∧ 0 ≤ d.y ∧ d.x + d.width ≤ g.floor_plan.width ∧
      d.y + d.height ≤ g.floor_plan.height) ∧
    (∀ z ∈ g.restricted_areas, (dataRect d).intersects z = false) ∧
    (∀ z ∈ g.entrance_areas, (dataRect d).intersects z = false)

theorem layoutToResult_ok (g : Gen) (l : Layout) (score : ℚ)
    (hg : GoodIlots g l.ilots) : ResultOk g (layoutToResult g l score) := by
  constructor
  · rw [layoutToResult]
    rw [List.pairwise_map]
    exact hg.1
  · intro d hd
    rw [layoutToResult] at hd
    simp only [List.mem_map] at hd
    obtain ⟨i, hmem, rfl⟩ := hd
    have hu := hg.2 i hmem
    exact ⟨hu.1, hu.2.1, hu.2.2⟩

/-- All layouts of a population satisfy the no-overlap invariant. -/
def GoodPop (g : Gen) (pop : List Layout) : Prop :=
  ∀ l ∈ pop, GoodIlots g l.ilots

/-- The tracked best-ever layout, when present, satisfies the invariant. -/
def GoodBest (g : Gen) : Option Layout → Prop
  | none => True
  | some l => GoodIlots g l.ilots

theorem mem_insertDesc (x y : Layout × ℚ) :
    ∀ l, y ∈ insertDesc x l → y = x ∨ y ∈ l := by
  intro l
  induction l with
  | nil => intro h; simpa [insertDesc] using h
  | cons a t ih =>
    intro h
    unfold insertDesc at h
    split at h
    · rcases List.mem_cons.mp h with h | h
      · exact Or.inl h
      · exact Or.inr h
    · rcases List.mem_cons.mp h with h | h
      · exact Or.inr (h ▸ List.mem_cons_self _ _)
      · rcases ih h with h | h
        · exact Or.inl h
        · exact Or.inr (List.mem_cons_of_mem _ h)

theorem mem_pySortDesc (y : Layout × ℚ) :
    ∀ l, y ∈ pySortDesc l → y ∈ l := by
  intro l
  induction l with
  | nil => intro h; simpa [pySortDesc] using h
  | cons a t ih =>
    intro h
    have h' : y ∈ insertDesc a (pySortDesc t) := h
    rcases mem_insertDesc a y (pySortDesc t) h' with h | h
    · exact h ▸ List.mem_cons_self _ _
    · exact List.mem_cons_of_mem _ (ih h)

theorem getD_mem_or {α : Type} : ∀ (l : List α) (n : ℕ) (d : α),
    l.getD n d ∈ l ∨ l.getD n d = d := by
  intro l
  induction l with
  | nil => intro n d; exact Or.inr rfl
  | cons a t ih =>
    intro n d
    rcases n with _ | m
    · exact Or.inl (List.mem_cons_self _ _)
    · rcases ih m d with h | h
      · exact Or.inl (List.mem_cons_of_mem _ h)
      · exact Or.inr h

theorem drawSample_mem (scored : List (Layout × ℚ)) :
    ∀ (k : ℕ) (r : Rng), ∀ e ∈ (drawSample scored k r).1,
      e ∈ scored ∨ e = (⟨[], []⟩, 0) := by
  intro k
  induction k with
  | zero => intro r e he; simp [drawSample] at he
  | succ k ih =>
    intro r e he
    unfold drawSample at he
    rcases List.mem_cons.mp he with he | he
    · exact he ▸ getD_mem_or scored _ _
    · exact ih _ e he

theorem foldl_pyMax_mem :
    ∀ (xs : List (Layout × ℚ)) (x : Layout × ℚ),
      xs.foldl (fun m y => if m.2 < y.2 then y else m) x ∈ x :: xs := by
  intro xs
  induction xs with
  | nil => intro x; exact List.mem_cons_self _ _
  | cons y t ih =>
    intro x
    rw [List.foldl_cons]
    have h := ih (if x.2 < y.2 then y else x)
    rcases List.mem_cons.mp h with h | h
    · rw [h]
      split
      · exact List.mem_cons_of_mem _ (List.mem_cons_self _ _)
      · exact List.mem_cons_self _ _
    · exact List.mem_cons_of_mem _ (List.mem_cons_of_mem _ h)

theorem pyMaxBySnd_mem : ∀ (l : List (Layout × ℚ)), pyMaxBySnd l ∈ l ∨ l = [] := by
  intro l
  rcases l with _ | ⟨x, xs⟩
  · exact Or.inr rfl
  · exact Or.inl (foldl_pyMax_mem xs x)

theorem tournamentSelection_good (g : Gen) (scored : List (Layout × ℚ)) (r : Rng)
    (hs : ∀ e ∈ scored, GoodIlots g e.1.ilots) :
    GoodIlots g (tournamentSelection scored r).1.ilots := by
  unfold tournamentSelection
  rcases pyMaxBySnd_mem (drawSample scored (min 5 scored.length) r).1 with h | h
  · rcases drawSample_mem scored (min 5 scored.length) r _ h with h2 | h2
    · exact hs _ h2
    · rw [h2]; exact GoodIlots_nil g
  · rw [h]; exact GoodIlots_nil g

theorem reproduce_good (g : Gen) (scored : List (Layout × ℚ))
    (hs : ∀ e ∈ scored, GoodIlots g e.1.ilots) :
    ∀ (k : ℕ) (r : Rng), GoodPop g (reproduce g scored k r).1 := by
  intro k
  induction k with
  | zero => intro r l hl; simp [reproduce] at hl
  | succ k ih =>
    intro r l hl
    unfold reproduce at hl
    rcases List.mem_cons.mp hl with hl | hl
    · subst hl
      have hp1 := tournamentSelection_good g scored r hs
      have hp2 := tournamentSelection_good g scored (tournamentSelection scored r).2 hs
      have hchild := crossover_good g _ _ hp1.2 hp2.2
      split
      · exact mutate_good g _ _ hchild
      · exact hchild
    · exact ih _ l hl

theorem gaStep_population (g : Gen) (s : GAState) : (gaStep g s).population =
    ((pySortDesc (s.population.map (fun ind => (ind, evaluateFitness g ind)))).take
      (populationSize / 5)).map Prod.fst ++
    (reproduce g (pySortDesc (s.population.map (fun ind => (ind, evaluateFitness g ind))))
      (populationSize -
        (((pySortDesc (s.population.map (fun ind => (ind, evaluateFitness g ind)))).take
          (populationSize / 5)).map Prod.fst).length) s.rng).1 := rfl

theorem gaStep_best (g : Gen) (s : GAState) : (gaStep g s).best =
    (match pySortDesc (s.population.map (fun ind => (ind, evaluateFitness g ind))) with
     | [] => (s.best, s.best_score)
     | top :: _ =>
        if s.best_score < top.2 then (some top.1, top.2) else (s.best, s.best_score)).1 := rfl

theorem scored_good (g : Gen) (pop : List Layout) (hp : GoodPop g pop) :
    ∀ e ∈ pySortDesc (pop.map (fun ind => (ind, evaluateFitness g ind))), GoodIlots g e.1.ilots := by
  intro e he
  have he' := mem_pySortDesc e _ he
  obtain ⟨l, hl, rfl⟩ := List.mem_map.mp he'
  exact hp l hl

theorem gaStep_good (g : Gen) (s : GAState) (hp : GoodPop g s.population)
    (hb : GoodBest g s.best) :
    GoodPop g (gaStep g s).population ∧ GoodBest g (gaStep g s).best := by
  have hs := scored_good g s.population hp
  constructor
  · rw [gaStep_population]
    intro l hl
    rcases List.mem_append.mp hl with hl | hl
    · obtain ⟨e, he, rfl⟩ := List.mem_map.mp hl
      exact hs e (List.mem_of_mem_take he)
    · exact reproduce_good g _ hs _ s.rng l hl
  · rw [gaStep_best]
    rcases hsort : pySortDesc (s.population.map (fun ind => (ind, evaluateFitness g ind))) with
      _ | ⟨top, rest⟩
    · exact hb
    · change GoodBest g
        (if s.best_score < top.2 then (some top.1, top.2) else (s.best, s.best_score)).1
      by_cases hlt : s.best_score < top.2
      · rw [if_pos hlt]
        refine hs top ?_
        rw [hsort]
        exact List.mem_cons_self _ _
      · rw [if_neg hlt]
        exact hb

theorem gaRun_good (g : Gen) :
    ∀ (k : ℕ) (s : GAState), GoodPop g s.population → GoodBest g s.best →
      GoodPop g (gaRun g k s).population ∧ GoodBest g (gaRun g k s).best := by
  intro k
  induction k with
  | zero => intro s hp hb; exact ⟨hp, hb⟩
  | succ k ih =>
    intro s hp hb
    have h := gaStep_good g s hp hb
    exact ih (gaStep g s) h.1 h.2

theorem buildPop_good (g : Gen) :
    ∀ (n : ℕ) (r : Rng), GoodPop g (buildPop g n r).1 := by
  intro n
  induction n with
  | zero => intro r l hl; simp [buildPop] at hl
  | succ n ih =>
    intro r l hl
    unfold buildPop at hl
    rcases List.mem_cons.mp hl with hl | hl
    · exact hl ▸ createRandomLayout_good g r
    · exact ih _ l hl

theorem initGAState_good (g : Gen) (r : Rng) :
    GoodPop g (initGAState g r).population ∧ GoodBest g (initGAState g r).best :=
  ⟨buildPop_good g populationSize r, trivial⟩

theorem buildPop_zero (g : Gen) (r : Rng) : buildPop g 0 r = ([], r) := rfl

theorem buildPop_succ (g : Gen) (n : ℕ) (r : Rng) :
    buildPop g (n + 1) r =
      ((createRandomLayout g r).1 :: (buildPop g n (createRandomLayout g r).2).1,
       (buildPop g n (createRandomLayout g r).2).2) := rfl

theorem initGAState_eq (g : Gen) (r : Rng) :
    initGAState g r = ⟨(buildPop g populationSize r).1, none, 0, (buildPop g populationSize r).2⟩ := rfl

theorem gaRun_zero (g : Gen) (s : GAState) : gaRun g 0 s = s := rfl

theorem gaRun_succ (g : Gen) (n : ℕ) (s : GAState) :
    gaRun g (n + 1) s = gaRun g n (gaStep g s) := rfl

theorem gaStep_components (g : Gen) (s : GAState) :
    gaStep g s =
      ⟨((pySortDesc (s.population.map (fun ind => (ind, evaluateFitness g ind)))).take
          (populationSize / 5)).map Prod.fst ++
        (reproduce g (pySortDesc (s.population.map (fun ind => (ind, evaluateFitness g ind))))
          (populationSize -
            (((pySortDesc (s.population.map (fun ind => (ind, evaluateFitness g ind)))).take
              (populationSize / 5)).map Prod.fst).length) s.rng).1,
       (match pySortDesc (s.population.map (fun ind => (ind, evaluateFitness g ind))) with
        | [] => (s.best, s.best_score)
        | top :: _ =>
          if s.best_score < top.2 then (some top.1, top.2) else (s.best, s.best_score)).1,
       (match pySortDesc (s.population.map (fun ind => (ind, evaluateFitness g ind))) with
        | [] => (s.best, s.best_score)
        | top :: _ =>
          if s.best_score < top.2 then (some top.1, top.2) else (s.best, s.best_score)).2,
       (reproduce g (pySortDesc (s.population.map (fun ind => (ind, evaluateFitness g ind))))
          (populationSize -
            (((pySortDesc (s.population.map (fun ind => (ind, evaluateFitness g ind)))).take
              (populationSize / 5)).map Prod.fst).length) s.rng).2⟩ := rfl

attribute [irreducible] buildPop initGAState gaRun gaStep

theorem geneticAlgorithm_ok (g : Gen) (r : Rng) (res : ApiResult)
    (h : geneticAlgorithm g r = some res) : ResultOk g res := by
  unfold geneticAlgorithm at h
  obtain ⟨l, hb, hres⟩ := finishGA_some g _ res h
  have hrun2 := (gaRun_good g 100 (initGAState g r)
    (initGAState_good g r).1 (initGAState_good g r).2).2
  rw [hb] at hrun2
  rw [hres]
  exact layoutToResult_ok g l _ hrun2

theorem generateLayout_genetic (g : Gen) (r : Rng) :
    generateLayout g "genetic" r = geneticAlgorithm g r := by
  unfold generateLayout
  rw [if_pos rfl]

theorem generateLayout_greedy (g : Gen) (r : Rng) :
    generateLayout g "greedy" r = some (greedyPlacement g r) := by
  unfold generateLayout
  rw [if_neg (by decide), if_pos rfl]

theorem generateLayout_random (g : Gen) (r : Rng) :
    generateLayout g "random" r = some (randomPlacement g r) := by
  unfold generateLayout
  rw [if_neg (by decide), if_neg (by decide), if_pos rfl]

theorem greedyPlacement_ok (g : Gen) (r : Rng) : ResultOk g (greedyPlacement g r) :=
  layoutToResult_ok g _ _ (greedy_fold_good g _ ([], r) (GoodIlots_nil g))

theorem randomPlacement_ok (g : Gen) (r : Rng) : ResultOk g (randomPlacement g r) :=
  layoutToResult_ok g _ _ (createRandomLayout_good g r)

/-- C1: every layout returned by `generate_layout`, for each of the three
algorithms, satisfies the no-overlap invariant: the returned unit rectangles
are pairwise non-intersecting, intersect no restricted or entrance/exit zone
rectangle, and lie within the floor bounds. -/
theorem C1_no_overlap_invariant :
    ∀ (fp : FloorPlan) (p : IlotProfile) (zones : List Zone) (alg : String)
      (r : Rng) (res : ApiResult),
      (alg = "genetic" ∨ alg = "greedy" ∨ alg = "random") →
      generateLayout (initGen fp p zones) alg r = some res →
      ResultOk (initGen fp p zones) res := by
  intro fp p zones alg r res halg h
  rcases halg with rfl | rfl | rfl
  · rw [generateLayout_genetic] at h
    exact geneticAlgorithm_ok _ r res h
  · rw [generateLayout_greedy] at h
    rw [← Option.some.inj h]
    exact greedyPlacement_ok _ r
  · rw [generateLayout_random] at h
    rw [← Option.some.inj h]
    exact randomPlacement_ok _ r

/-- Concrete generator for the C1 witness: a 4-by-4 floor with no zones. -/
def gW1 : Gen := initGen ⟨4, 4⟩ ⟨none, 3/2⟩ []

/-- Constant oracle stream used by witnesses. -/
def rngW : Rng := ⟨fun _ => 15, 0⟩

/-- Witness for C1: a concrete greedy run returns a layout satisfying the
no-overlap invariant. -/
theorem C1_witness :
    ∃ res, generateLayout gW1 "greedy" rngW = some res ∧ ResultOk gW1 res :=
  ⟨greedyPlacement gW1 rngW, generateLayout_greedy gW1 rngW,
   C1_no_overlap_invariant ⟨4, 4⟩ ⟨none, 3/2⟩ [] "greedy" rngW (greedyPlacement gW1 rngW)
     (Or.inr (Or.inl rfl)) (generateLayout_greedy gW1 rngW)⟩

theorem drawIndex_half : drawIndex (1/2) 50 = 0 := by with_unfolding_all rfl

theorem foldl_max_const (L : Layout) (s : ℚ) :
    ∀ k : ℕ, (List.replicate k (L, s)).foldl (fun m y => if m.2 < y.2 then y else m) (L, s)
      = (L, s) := by
  intro k
  induction k with
  | zero => rfl
  | succ k ih =>
    rw [List.replicate_succ, List.foldl_cons]
    simpa [lt_irrefl] using ih

theorem pyMaxBySnd_replicate (L : Layout) (s : ℚ) (k : ℕ) :
    pyMaxBySnd (List.replicate (k + 1) (L, s)) = (L, s) := by
  rw [List.replicate_succ]
  exact foldl_max_const L s k

theorem drawSample_succ (scored : List (Layout × ℚ)) (k : ℕ) (r : Rng) :
    drawSample scored (k + 1) r =
      ((scored.getD (drawIndex (r.vals r.pos) scored.length) (⟨[], []⟩, 0)) ::
        (drawSample scored k ⟨r.vals, r.pos + 1⟩).1,
       (drawSample scored k ⟨r.vals, r.pos + 1⟩).2) := rfl

theorem drawSample_const (L : Layout) (s : ℚ) (vals : ℕ → ℚ) (N : ℕ)
    (hv : ∀ n, N ≤ n → vals n = 1/2) :
    ∀ (k pos : ℕ), N ≤ pos →
      drawSample (List.replicate 50 (L, s)) k ⟨vals, pos⟩ =
        (List.replicate k (L, s), ⟨vals, pos + k⟩) := by
  intro k
  induction k with
  | zero => intro pos _; simp [drawSample]
  | succ k ih =>
    intro pos hpos
    rw [drawSample_succ]
    have hval : vals pos = 1/2 := hv pos hpos
    simp only [hval, List.length_replicate, drawIndex_half]
    rw [ih (pos + 1) (by omega)]
    have hgd : (List.replicate 50 (L, s)).getD 0 (⟨[], []⟩, 0) = (L, s) := rfl
    rw [hgd]
    have harith : pos + 1 + k = pos + (k + 1) := by omega
    rw [harith, ← List.replicate_succ]

theorem tournament_const (L : Layout) (s : ℚ) (vals : ℕ → ℚ) (N : ℕ)
    (hv : ∀ n, N ≤ n → vals n = 1/2) (pos : ℕ) (hpos : N ≤ pos) :
    tournamentSelection (List.replicate 50 (L, s)) ⟨vals, pos⟩ = (L, ⟨vals, pos + 5⟩) := by
  unfold tournamentSelection
  have hmin : min 5 (List.replicate 50 (L, s)).length = 5 := by
    rw [List.length_replicate]
    norm_num
  rw [hmin, drawSample_const L s vals N hv 5 pos hpos]
  rw [show (5 : ℕ) = 4 + 1 from rfl, pyMaxBySnd_replicate]

theorem reproduce_zero (g : Gen) (scored : List (Layout × ℚ)) (r : Rng) :
    reproduce g scored 0 r = ([], r) := rfl

theorem reproduce_succ (g : Gen) (scored : List (Layout × ℚ)) (k : ℕ) (r : Rng) :
    reproduce g scored (k + 1) r =
      ((if (tournamentSelection scored (tournamentSelection scored r).2).2.next.1 < 1/10 then
          mutate g (crossover g (tournamentSelection scored r).1
            (tournamentSelection scored (tournamentSelection scored r).2).1)
            (tournamentSelection scored (tournamentSelection scored r).2).2.next.2
        else
          (crossover g (tournamentSelection scored r).1
            (tournamentSelection scored (tournamentSelection scored r).2).1,
           (tournamentSelection scored (tournamentSelection scored r).2).2.next.2)).1 ::
        (reproduce g scored k
          (if (tournamentSelection scored (tournamentSelection scored r).2).2.next.1 < 1/10 then
            mutate g (crossover g (tournamentSelection scored r).1
              (tournamentSelection scored (tournamentSelection scored r).2).1)
              (tournamentSelection scored (tournamentSelection scored r).2).2.next.2
          else
            (crossover g (tournamentSelection scored r).1
              (tournamentSelection scored (tournamentSelection scored r).2).1,
             (tournamentSelection scored (tournamentSelection scored r).2).2.next.2)).2).1,
       (reproduce g scored k
          (if (tournamentSelection scored (tournamentSelection scored r).2).2.next.1 < 1/10 then
            mutate g (crossover g (tournamentSelection scored r).1
              (tournamentSelection scored (tournamentSelection scored r).2).1)
              (tournamentSelection scored (tournamentSelection scored r).2).2.next.2
          else
            (crossover g (tournamentSelection scored r).1
              (tournamentSelection scored (tournamentSelection scored r).2).1,
             (tournamentSelection scored (tournamentSelection scored r).2).2.next.2)).2).2) := rfl

theorem reproduce_const (g : Gen) (L : Layout) (s : ℚ) (vals : ℕ → ℚ) (N : ℕ)
    (hv : ∀ n, N ≤ n → vals n = 1/2) (hcross : crossover g L L = L) :
    ∀ (k pos : ℕ), N ≤ pos →
      reproduce g (List.replicate 50 (L, s)) k ⟨vals, pos⟩ =
        (List.replicate k L, ⟨vals, pos + 11 * k⟩) := by
  intro k
  induction k with
  | zero => intro pos hpos; rw [reproduce_zero]; simp
  | succ k ih =>
    intro pos hpos
    have h10 : vals (pos + 5 + 5) = 1/2 := hv _ (by omega)
    rw [reproduce_succ]
    rw [tournament_const L s vals N hv pos hpos]
    simp only [Rng.next, h10]
    rw [tournament_const L s vals N hv (pos + 5) (by omega)]
    simp only [Rng.next, h10]
    rw [if_neg (by norm_num : ¬ ((1:ℚ)/2 < (1:ℚ)/10))]
    simp only [hcross]
    rw [show pos + 5 + 5 + 1 = pos + 11 by omega]
    rw [ih (pos + 11) (by omega)]
    rw [show pos + 11 + 11 * k = pos + 11 * (k + 1) by ring]
    rw [← List.replicate_succ]

theorem gaRun_fix_generic (g : Gen) (pop : List Layout) (b : Option Layout) (sc : ℚ)
    (vals : ℕ → ℚ) (N : ℕ)
    (hstep : ∀ pos, N ≤ pos →
      gaStep g ⟨pop, b, sc, ⟨vals, pos⟩⟩ = ⟨pop, b, sc, ⟨vals, pos + 440⟩⟩) :
    ∀ (k pos : ℕ), N ≤ pos →
      gaRun g k ⟨pop, b, sc, ⟨vals, pos⟩⟩ = ⟨pop, b, sc, ⟨vals, pos + 440 * k⟩⟩ := by
  intro k
  induction k with
  | zero => intro pos hpos; rw [gaRun_zero]; norm_num
  | succ k ih =>
    intro pos hpos
    rw [gaRun_succ, hstep pos hpos, ih (pos + 440) (by omega)]
    rw [show pos + 440 + 440 * k = pos + 440 * (k + 1) by ring]

/-- The C4 failing input: a 4-by-4 floor (available area 16, so the target
unit count `int(16/20)` is 0 and every random layout is empty). -/
def g4 : Gen := initGen ⟨4, 4⟩ ⟨none, 3/2⟩ []

/-- A constant oracle; any oracle gives the same crash here since no random
draw changes an empty layout. -/
def halfFun : ℕ → ℚ := fun _ => 1/2

def rngHalf : Rng := ⟨halfFun, 0⟩

/-- The empty individual. -/
def layE : Layout := ⟨[], []⟩

theorem halfFun_ge (n : ℕ) (h : 0 ≤ n) : halfFun n = 1/2 := rfl

theorem crossE : crossover g4 layE layE = layE := by with_unfolding_all rfl

theorem scoredE : (List.replicate 50 layE).map (fun ind => (ind, evaluateFitness g4 ind)) =
    List.replicate 50 (layE, (0 : ℚ)) := by with_unfolding_all rfl

theorem sortE : pySortDesc (List.replicate 50 (layE, (0 : ℚ))) =
    List.replicate 50 (layE, (0 : ℚ)) := by with_unfolding_all rfl

theorem eliteE : ((List.replicate 50 (layE, (0 : ℚ))).take (populationSize / 5)).map Prod.fst =
    List.replicate 10 layE := by with_unfolding_all rfl

theorem elenE : populationSize -
    (((List.replicate 50 (layE, (0 : ℚ))).take (populationSize / 5)).map Prod.fst).length = 40 := by
  with_unfolding_all rfl

/-- With an all-empty population and score 0 everywhere, one generation step
leaves the population, the `None` best layout and the best score unchanged
(it only advances the oracle by the 440 draws of the offspring loop). -/
theorem gaStep_fix_E : ∀ pos : ℕ,
    gaStep g4 ⟨List.replicate 50 layE, none, 0, ⟨halfFun, pos⟩⟩ =
      ⟨List.replicate 50 layE, none, 0, ⟨halfFun, pos + 440⟩⟩ := by
  intro pos
  rw [gaStep_components]
  simp only [scoredE, sortE, elenE]
  rw [reproduce_const g4 layE 0 halfFun 0 halfFun_ge crossE 40 pos (Nat.zero_le pos)]
  simp only [GAState.mk.injEq]
  refine ⟨?_, ?_, ?_, ?_⟩
  · rw [eliteE, ← List.replicate_add]
  · with_unfolding_all rfl
  · with_unfolding_all rfl
  · norm_num

theorem initE : initGAState g4 rngHalf = ⟨List.replicate 50 layE, none, 0, ⟨halfFun, 0⟩⟩ := by
  with_unfolding_all rfl

/-- C4: on an input where every candidate layout of every generation is
empty (all fitness scores 0), `generate_layout('genetic')` does not return an
empty layout with score 0: `best_layout` stays `None` through all 100
generations and `_layout_to_result(None, 0)` raises a `TypeError`, modelled
here as the `none` result.  The spec says this degrades gracefully; the code
crashes, a code bug. -/
theorem C4_genetic_crash_on_all_empty : generateLayout g4 "genetic" rngHalf = none := by
  rw [generateLayout_genetic]
  unfold geneticAlgorithm
  rw [initE]
  rw [gaRun_fix_generic g4 (List.replicate 50 layE) none 0 halfFun 0
    (fun pos _ => gaStep_fix_E pos) 100 0 (le_refl 0)]
  rfl

/-- The C5 genetic counterexample floor: 16 by 4.875 (area 78, so three
target units, bucket counts (1, 1, 0) of the default distribution). -/
def gC5 : Gen := initGen ⟨16, 39/8⟩ ⟨none, 10⟩ []

/-- Oracle values creating parent A: a 4-by-4 unit of area 16 at (0,0) and a
6-by-4.5 unit of area 27 at (4.25, 0); each placement succeeds on its first
attempt (draw order per attempt: area, width, height, x, y). -/
def AplaceVals : List ℚ := [16, 4, 4, 0, 0, 27, 6, 9/2, 17/4, 0]

/-- Oracle values creating parent B: the same two unit shapes at (10.5, 0)
and (0, 0). -/
def BplaceVals : List ℚ := [16, 4, 4, 21/2, 0, 27, 6, 9/2, 0, 0]

/-- Initial-population oracle segment: individual 0 is A, individual 1 is B,
individuals 2..49 are copies of A (10 draws each, 500 in total). -/
def oTable : List ℚ := AplaceVals ++ BplaceVals ++ (List.replicate 48 AplaceVals).flatten

/-- The full oracle: the 500-value initial segment, then value 1 at position
505 (the first index draw of generation 0's second tournament, selecting
parent B), and 1/2 everywhere else (index draws floor to 0, mutation coins
never fire). -/
def oFun : ℕ → ℚ := fun n => if n < 500 then oTable.getD n (1/2) else if n = 505 then 1 else 1/2

def rngC5 : Rng := ⟨oFun, 0⟩

def ilotA1 : Ilot := ⟨1, ⟨0, 0, 4, 4⟩, "standard", 16, 15, 25⟩

def ilotA2 : Ilot := ⟨2, ⟨17/4, 0, 6, 9/2⟩, "standard", 27, 25, 35⟩

/-- Parent A (no corridor gap reaches `1.5 * corridor_width = 15`). -/
def layA : Layout := ⟨[ilotA1, ilotA2], []⟩

def ilotB1 : Ilot := ⟨1, ⟨21/2, 0, 4, 4⟩, "standard", 16, 15, 25⟩

def ilotB2 : Ilot := ⟨2, ⟨0, 0, 6, 9/2⟩, "standard", 27, 25, 35⟩

/-- Parent B. -/
def layB : Layout := ⟨[ilotB1, ilotB2], []⟩

/-- The crossover child of A and B: A's two units survive, B's first unit
(strictly right of both) survives carrying the duplicate id 1, B's second
unit overlaps A's first and is dropped. -/
def layC : Layout := ⟨[ilotA1, ilotA2, ilotB1], []⟩

def popInit : List Layout := layA :: layB :: List.replicate 48 layA

def pop1 : List Layout := (layA :: layB :: List.replicate 8 layA) ++ layC :: List.replicate 39 layA

def pop2 : List Layout := (layC :: layA :: layB :: List.replicate 7 layA) ++ List.replicate 40 layC

theorem oFun_ge (n : ℕ) (h : 506 ≤ n) : oFun n = 1/2 := by
  unfold oFun
  rw [if_neg (by omega), if_neg (by omega)]

theorem initC5 : initGAState gC5 rngC5 = ⟨popInit, none, 0, ⟨oFun, 500⟩⟩ := by
  with_unfolding_all rfl

theorem step0C5 : gaStep gC5 ⟨popInit, none, 0, ⟨oFun, 500⟩⟩ =
    ⟨pop1, some layA, 8/13, ⟨oFun, 940⟩⟩ := by
  with_unfolding_all rfl

theorem step1C5 : gaStep gC5 ⟨pop1, some layA, 8/13, ⟨oFun, 940⟩⟩ =
    ⟨pop2, some layC, 44/65, ⟨oFun, 1380⟩⟩ := by
  with_unfolding_all rfl

theorem step2C5 : gaStep gC5 ⟨pop2, some layC, 44/65, ⟨oFun, 1380⟩⟩ =
    ⟨List.replicate 50 layC, some layC, 44/65, ⟨oFun, 1820⟩⟩ := by
  with_unfolding_all rfl

theorem crossC : crossover gC5 layC layC = layC := by with_unfolding_all rfl

theorem scoredC : (List.replicate 50 layC).map (fun ind => (ind, evaluateFitness gC5 ind)) =
    List.replicate 50 (layC, (44/65 : ℚ)) := by with_unfolding_all rfl

theorem sortC : pySortDesc (List.replicate 50 (layC, (44/65 : ℚ))) =
    List.replicate 50 (layC, (44/65 : ℚ)) := by with_unfolding_all rfl

theorem eliteC : ((List.replicate 50 (layC, (44/65 : ℚ))).take (populationSize / 5)).map Prod.fst =
    List.replicate 10 layC := by with_unfolding_all rfl

theorem elenC : populationSize -
    (((List.replicate 50 (layC, (44/65 : ℚ))).take (populationSize / 5)).map Prod.fst).length
      = 40 := by
  with_unfolding_all rfl

/-- Once the population is 50 copies of the duplicate-id child and the
best-ever pair is (C, 44/65), each further generation is a fixpoint, only
advancing the oracle. -/
theorem gaStep_fix_C : ∀ pos : ℕ, 506 ≤ pos →
    gaStep gC5 ⟨List.replicate 50 layC, some layC, 44/65, ⟨oFun, pos⟩⟩ =
      ⟨List.replicate 50 layC, some layC, 44/65, ⟨oFun, pos + 440⟩⟩ := by
  intro pos hpos
  rw [gaStep_components]
  simp only [scoredC, sortC, elenC]
  rw [reproduce_const gC5 layC (44/65) oFun 506 oFun_ge crossC 40 pos hpos]
  simp only [GAState.mk.injEq]
  refine ⟨?_, ?_, ?_, ?_⟩
  · rw [eliteC, ← List.replicate_add]
  · with_unfolding_all rfl
  · with_unfolding_all rfl
  · norm_num

theorem gaRunC5 : gaRun gC5 100 ⟨popInit, none, 0, ⟨oFun, 500⟩⟩ =
    ⟨List.replicate 50 layC, some layC, 44/65, ⟨oFun, 1820 + 440 * 97⟩⟩ := by
  have h3 : gaRun gC5 3 ⟨popInit, none, 0, ⟨oFun, 500⟩⟩ =
      ⟨List.replicate 50 layC, some layC, 44/65, ⟨oFun, 1820⟩⟩ := by
    rw [gaRun_succ, gaRun_succ, gaRun_succ, gaRun_zero]
    rw [step0C5, step1C5, step2C5]
  rw [show (100 : ℕ) = 97 + 3 from rfl, gaRun_add, h3]
  exact gaRun_fix_generic gC5 (List.replicate 50 layC) (some layC) (44/65) oFun 506
    gaStep_fix_C 97 1820 (by omega)

/-- C5 counterexample: a complete genetic run whose returned layout carries
the unit ids [1, 2, 1] — crossover pooled two parents whose ids both restart
at 1, so the returned ids are not pairwise distinct. -/
theorem C5_counterexample :
    ∃ res, generateLayout gC5 "genetic" rngC5 = some res ∧
      ¬ (res.ilots.map IlotData.id).Nodup := by
  refine ⟨layoutToResult gC5 layC (44/65), ?_, ?_⟩
  · rw [generateLayout_genetic]
    unfold geneticAlgorithm
    rw [initC5, gaRunC5]
    rfl
  · have hids : (layoutToResult gC5 layC (44/65)).ilots.map IlotData.id = [1, 2, 1] := by
      with_unfolding_all rfl
    rw [hids]
    decide

theorem placeAttempt_id (g : Gen) (ilotId : ℕ) (mins maxs : ℚ) (existing : List Ilot)
    (r r2 : Rng) (i : Ilot)
    (h : placeAttempt g ilotId mins maxs existing r = (some i, r2)) : i.id = ilotId := by
  simp only [placeAttempt, Rng.next] at h
  split at h
  · rw [Prod.mk.injEq] at h
    obtain ⟨h1, _⟩ := h
    injection h1 with h1
    subst h1
    rfl
  · exact absurd h (by simp)

theorem placeLoop_id (g : Gen) (ilotId : ℕ) (mins maxs : ℚ) (existing : List Ilot) :
    ∀ (fuel : ℕ) (r r2 : Rng) (i : Ilot),
      placeLoop g ilotId mins maxs existing fuel r = (some i, r2) → i.id = ilotId := by
  intro fuel
  induction fuel with
  | zero =>
    intro r r2 i h
    rw [placeLoop_zero] at h
    exact absurd h (by simp)
  | succ n ih =>
    intro r r2 i h
    rw [placeLoop_succ] at h
    rcases ha : placeAttempt g ilotId mins maxs existing r with ⟨oi, r'⟩
    rw [ha] at h
    rcases oi with _ | j
    · exact ih r' r2 i h
    · have h' : (some j, r') = (some i, r2) := h
      rw [Prod.mk.injEq] at h'
      obtain ⟨h1, _⟩ := h'
      injection h1 with h1
      subst h1
      exact placeAttempt_id g ilotId mins maxs existing r r' j ha

/-- Sequential-id invariant: the unit ids so far are 1..len and the next id
is len + 1. -/
def SeqIds (ilots : List Ilot) (nid : ℕ) : Prop :=
  ilots.map Ilot.id = List.range' 1 ilots.length ∧ nid = ilots.length + 1

theorem SeqIds_append (ilots : List Ilot) (nid : ℕ) (i : Ilot)
    (hs : SeqIds ilots nid) (hid : i.id = nid) : SeqIds (ilots ++ [i]) (nid + 1) := by
  obtain ⟨h1, h2⟩ := hs
  constructor
  · rw [List.map_append, List.length_append, h1]
    simp only [List.map_cons, List.map_nil, List.length_cons, List.length_nil]
    rw [hid, h2]
    rw [List.range'_concat]
    rw [show 1 + 1 * ilots.length = ilots.length + 1 by ring]
  · rw [List.length_append]
    simp
    omega

theorem placeCount_ids (g : Gen) (mins maxs : ℚ) :
    ∀ (n : ℕ) (ilots : List Ilot) (nid : ℕ) (r : Rng),
      SeqIds ilots nid →
      SeqIds (placeCount g mins maxs n ilots nid r).1 (placeCount g mins maxs n ilots nid r).2.1 := by
  intro n
  induction n with
  | zero => intro ilots nid r hs; rw [placeCount_zero]; exact hs
  | succ n ih =>
    intro ilots nid r hs
    rw [placeCount_succ]
    rcases ha : placeRandomIlot g nid mins maxs ilots r with ⟨oi, r'⟩
    rcases oi with _ | i
    · exact ih ilots nid r' hs
    · exact ih (ilots ++ [i]) (nid + 1) r'
        (SeqIds_append ilots nid i hs (placeLoop_id g nid mins maxs ilots 100 r r' i ha))

theorem foldl_bucketStep_ids (g : Gen) (totalIlots : ℕ) :
    ∀ (dist : List SizeBucket) (acc : List Ilot × ℕ × Rng),
      SeqIds acc.1 acc.2.1 →
      SeqIds (dist.foldl (bucketStep g totalIlots) acc).1
        (dist.foldl (bucketStep g totalIlots) acc).2.1 := by
  intro dist
  induction dist with
  | nil => intro acc hs; exact hs
  | cons b t ih =>
    intro acc hs
    rw [List.foldl_cons]
    exact ih _ (placeCount_ids g b.min_size b.max_size _ acc.1 acc.2.1 acc.2.2 hs)

theorem createRandomLayout_ids (g : Gen) (r : Rng) :
    (createRandomLayout g r).1.ilots.map Ilot.id =
      List.range' 1 (createRandomLayout g r).1.ilots.length :=
  (foldl_bucketStep_ids g _ _ ([], 1, r) ⟨rfl, rfl⟩).1

theorem greedyStep_ids (g : Gen) (acc : List Ilot × Rng) (cell : ℕ × ℕ)
    (h : acc.1.map Ilot.id = List.range' 1 acc.1.length) :
    (greedyStep g acc cell).1.map Ilot.id = List.range' 1 (greedyStep g acc cell).1.length := by
  obtain ⟨ilots, r⟩ := acc
  unfold greedyStep
  simp only [Rng.next]
  split
  · exact h
  · split
    · exact (SeqIds_append ilots (ilots.length + 1) _ ⟨h, rfl⟩ rfl).1
    · exact h

theorem greedy_fold_ids (g : Gen) :
    ∀ (cells : List (ℕ × ℕ)) (acc : List Ilot × Rng),
      acc.1.map Ilot.id = List.range' 1 acc.1.length →
      (cells.foldl (greedyStep g) acc).1.map Ilot.id =
        List.range' 1 (cells.foldl (greedyStep g) acc).1.length := by
  intro cells
  induction cells with
  | nil => intro acc h; exact h
  | cons c t ih =>
    intro acc h
    rw [List.foldl_cons]
    exact ih _ (greedyStep_ids g acc c h)

theorem layoutToResult_ids (g : Gen) (l : Layout) (score : ℚ) :
    (layoutToResult g l score).ilots.map IlotData.id = l.ilots.map Ilot.id := by
  rw [layoutToResult]
  rw [List.map_map]
  rfl

/-- C5 amended: the greedy and random algorithms return pairwise-distinct
unit ids (the ids are exactly 1..n in order); the genetic algorithm does not
in general, because crossover pools two parents whose ids each restart at
1 (see the counterexample). -/
theorem C5_amended_ids_nodup_greedy_random :
    ∀ (fp : FloorPlan) (p : IlotProfile) (zones : List Zone) (alg : String)
      (r : Rng) (res : ApiResult),
      (alg = "greedy" ∨ alg = "random") →
      generateLayout (initGen fp p zones) alg r = some res →
      (res.ilots.map IlotData.id).Nodup := by
  intro fp p zones alg r res halg h
  rcases halg with rfl | rfl
  · rw [generateLayout_greedy] at h
    rw [← Option.some.inj h]
    have hid : (greedyPlacement (initGen fp p zones) r).ilots.map IlotData.id =
        List.range' 1 ((pyRange30 (pyInt (initGen fp p zones).floor_plan.height).toNat).flatMap
          (fun y => (pyRange30 (pyInt (initGen fp p zones).floor_plan.width).toNat).map
            (fun x => (x, y))) |>.foldl (greedyStep (initGen fp p zones)) ([], r)).1.length := by
      have heq : (greedyPlacement (initGen fp p zones) r).ilots.map IlotData.id =
          ((pyRange30 (pyInt (initGen fp p zones).floor_plan.height).toNat).flatMap
            (fun y => (pyRange30 (pyInt (initGen fp p zones).floor_plan.width).toNat).map
              (fun x => (x, y))) |>.foldl (greedyStep (initGen fp p zones)) ([], r)).1.map
            Ilot.id := layoutToResult_ids _ _ _
      rw [heq]
      exact greedy_fold_ids _ _ ([], r) rfl
    rw [hid]
    exact List.nodup_range' _ _
  · rw [generateLayout_random] at h
    rw [← Option.some.inj h]
    have heq : (randomPlacement (initGen fp p zones) r).ilots.map IlotData.id =
        (createRandomLayout (initGen fp p zones) r).1.ilots.map Ilot.id :=
      layoutToResult_ids _ _ _
    rw [heq, createRandomLayout_ids]
    exact List.nodup_range' _ _

/-- Witness for the amended C5 at a concrete greedy run. -/
theorem C5_witness :
    ∃ res, generateLayout gW1 "greedy" rngW = some res ∧
      (res.ilots.map IlotData.id).Nodup :=
  ⟨greedyPlacement gW1 rngW, generateLayout_greedy gW1 rngW,
   C5_amended_ids_nodup_greedy_random ⟨4, 4⟩ ⟨none, 3/2⟩ [] "greedy" rngW
     (greedyPlacement gW1 rngW) (Or.inl rfl) (generateLayout_greedy gW1 rngW)⟩

theorem placeRandomIlot_falsy (fp : FloorPlan) (cw : ℚ) (zones : List Zone)
    (ilotId : ℕ) (mins maxs : ℚ) (existing : List Ilot) (r : Rng) :
    placeRandomIlot (initGen fp ⟨some [], cw⟩ zones) ilotId mins maxs existing r =
      placeRandomIlot (initGen fp ⟨none, cw⟩ zones) ilotId mins maxs existing r := rfl

theorem placeCount_falsy (fp : FloorPlan) (cw : ℚ) (zones : List Zone) (mins maxs : ℚ) :
    ∀ (n : ℕ) (ilots : List Ilot) (nid : ℕ) (r : Rng),
      placeCount (initGen fp ⟨some [], cw⟩ zones) mins maxs n ilots nid r =
        placeCount (initGen fp ⟨none, cw⟩ zones) mins maxs n ilots nid r := by
  intro n
  induction n with
  | zero => intro ilots nid r; rw [placeCount_zero, placeCount_zero]
  | succ n ih =>
    intro ilots nid r
    rw [placeCount_succ, placeCount_succ, ← placeRandomIlot_falsy fp cw zones nid mins maxs ilots r]
    rcases placeRandomIlot (initGen fp ⟨some [], cw⟩ zones) nid mins maxs ilots r with ⟨oi, r'⟩
    rcases oi with _ | i
    · exact ih ilots nid r'
    · exact ih (ilots ++ [i]) (nid + 1) r'

theorem bucketStep_falsy (fp : FloorPlan) (cw : ℚ) (zones : List Zone) (t : ℕ)
    (acc : List Ilot × ℕ × Rng) (b : SizeBucket) :
    bucketStep (initGen fp ⟨some [], cw⟩ zones) t acc b =
      bucketStep (initGen fp ⟨none, cw⟩ zones) t acc b := by
  unfold bucketStep
  exact placeCount_falsy fp cw zones b.min_size b.max_size _ acc.1 acc.2.1 acc.2.2

theorem createRandomLayout_eq (g : Gen) (r : Rng) :
    createRandomLayout g r =
      (⟨((effectiveSizeDistribution g.profile).foldl
          (bucketStep g (natMin 100 (pyInt (availableArea g / 20)).toNat)) ([], 1, r)).1,
        generateCorridors g ((effectiveSizeDistribution g.profile).foldl
          (bucketStep g (natMin 100 (pyInt (availableArea g / 20)).toNat)) ([], 1, r)).1⟩,
       ((effectiveSizeDistribution g.profile).foldl
          (bucketStep g (natMin 100 (pyInt (availableArea g / 20)).toNat)) ([], 1, r)).2.2) := rfl

theorem createRandomLayout_falsy (fp : FloorPlan) (cw : ℚ) (zones : List Zone) (r : Rng) :
    createRandomLayout (initGen fp ⟨some [], cw⟩ zones) r =
      createRandomLayout (initGen fp ⟨none, cw⟩ zones) r := by
  rw [createRandomLayout_eq, createRandomLayout_eq]
  have hfold : ∀ acc, List.foldl
      (bucketStep (initGen fp ⟨some [], cw⟩ zones)
        (natMin 100 (pyInt (availableArea (initGen fp ⟨some [], cw⟩ zones) / 20)).toNat)) acc
      (effectiveSizeDistribution (initGen fp ⟨some [], cw⟩ zones).profile) =
      List.foldl
      (bucketStep (initGen fp ⟨none, cw⟩ zones)
        (natMin 100 (pyInt (availableArea (initGen fp ⟨none, cw⟩ zones) / 20)).toNat)) acc
      (effectiveSizeDistribution (initGen fp ⟨none, cw⟩ zones).profile) := by
    intro acc
    apply foldl_funext
    intro s b
    exact bucketStep_falsy fp cw zones _ s b
  rw [hfold]
  rfl

theorem randomPlacement_falsy (fp : FloorPlan) (cw : ℚ) (zones : List Zone) (r : Rng) :
    randomPlacement (initGen fp ⟨some [], cw⟩ zones) r =
      randomPlacement (initGen fp ⟨none, cw⟩ zones) r := by
  unfold randomPlacement
  rw [createRandomLayout_falsy]
  rfl

theorem crossover_falsy (fp : FloorPlan) (cw : ℚ) (zones : List Zone) (p1 p2 : Layout) :
    crossover (initGen fp ⟨some [], cw⟩ zones) p1 p2 =
      crossover (initGen fp ⟨none, cw⟩ zones) p1 p2 := rfl

theorem mutate_falsy (fp : FloorPlan) (cw : ℚ) (zones : List Zone) (ind : Layout) (r : Rng) :
    mutate (initGen fp ⟨some [], cw⟩ zones) ind r =
      mutate (initGen fp ⟨none, cw⟩ zones) ind r := rfl

theorem reproduce_falsy (fp : FloorPlan) (cw : ℚ) (zones : List Zone)
    (scored : List (Layout × ℚ)) :
    ∀ (k : ℕ) (r : Rng),
      reproduce (initGen fp ⟨some [], cw⟩ zones) scored k r =
        reproduce (initGen fp ⟨none, cw⟩ zones) scored k r := by
  intro k
  induction k with
  | zero => intro r; rw [reproduce_zero, reproduce_zero]
  | succ k ih =>
    intro r
    rw [reproduce_succ, reproduce_succ, crossover_falsy, mutate_falsy, ih]

theorem evaluateFitness_falsy (fp : FloorPlan) (cw : ℚ) (zones : List Zone) (l : Layout) :
    evaluateFitness (initGen fp ⟨some [], cw⟩ zones) l =
      evaluateFitness (initGen fp ⟨none, cw⟩ zones) l := rfl

theorem gaStep_falsy (fp : FloorPlan) (cw : ℚ) (zones : List Zone) (s : GAState) :
    gaStep (initGen fp ⟨some [], cw⟩ zones) s = gaStep (initGen fp ⟨none, cw⟩ zones) s := by
  rw [gaStep_components, gaStep_components]
  have hmap : (fun ind => (ind, evaluateFitness (initGen fp ⟨some [], cw⟩ zones) ind)) =
      (fun ind => (ind, evaluateFitness (initGen fp ⟨none, cw⟩ zones) ind)) :=
    funext (fun ind => by rw [evaluateFitness_falsy])
  rw [hmap, reproduce_falsy]

theorem gaRun_falsy (fp : FloorPlan) (cw : ℚ) (zones : List Zone) :
    ∀ (k : ℕ) (s : GAState),
      gaRun (initGen fp ⟨some [], cw⟩ zones) k s = gaRun (initGen fp ⟨none, cw⟩ zones) k s := by
  intro k
  induction k with
  | zero => intro s; rw [gaRun_zero, gaRun_zero]
  | succ k ih =>
    intro s
    rw [gaRun_succ, gaRun_succ, gaStep_falsy, ih]

theorem buildPop_falsy (fp : FloorPlan) (cw : ℚ) (zones : List Zone) :
    ∀ (n : ℕ) (r : Rng),
      buildPop (initGen fp ⟨some [], cw⟩ zones) n r =
        buildPop (initGen fp ⟨none, cw⟩ zones) n r := by
  intro n
  induction n with
  | zero => intro r; rw [buildPop_zero, buildPop_zero]
  | succ n ih =>
    intro r
    rw [buildPop_succ, buildPop_succ, createRandomLayout_falsy, ih]

theorem finishGA_falsy (fp : FloorPlan) (cw : ℚ) (zones : List Zone) (s : GAState) :
    finishGA (initGen fp ⟨some [], cw⟩ zones) s = finishGA (initGen fp ⟨none, cw⟩ zones) s := rfl

theorem geneticAlgorithm_falsy (fp : FloorPlan) (cw : ℚ) (zones : List Zone) (r : Rng) :
    geneticAlgorithm (initGen fp ⟨some [], cw⟩ zones) r =
      geneticAlgorithm (initGen fp ⟨none, cw⟩ zones) r := by
  unfold geneticAlgorithm
  rw [initGAState_eq, initGAState_eq, buildPop_falsy, gaRun_falsy, finishGA_falsy]

theorem greedyPlacement_falsy (fp : FloorPlan) (cw : ℚ) (zones : List Zone) (r : Rng) :
    greedyPlacement (initGen fp ⟨some [], cw⟩ zones) r =
      greedyPlacement (initGen fp ⟨none, cw⟩ zones) r := rfl

/-- C3 amended: an empty size-bucket list is treated by the code exactly like
an absent one — Python's `or` falls back on the built-in default
distribution — so `generate_layout` returns the same result for the
empty-bucket profile as for the `None`-distribution profile (in particular,
units are generally placed; the layout is not forced to be empty). -/
theorem C3_amended_empty_buckets_use_default :
    ∀ (fp : FloorPlan) (cw : ℚ) (zones : List Zone) (alg : String) (r : Rng),
      generateLayout (initGen fp ⟨some [], cw⟩ zones) alg r =
        generateLayout (initGen fp ⟨none, cw⟩ zones) alg r := by
  intro fp cw zones alg r
  unfold generateLayout
  rw [geneticAlgorithm_falsy, greedyPlacement_falsy, randomPlacement_falsy]

/-- C3 counterexample: with an empty size-bucket list on a 16-by-4.875 floor
and no zones, `generate_layout('random')` places two units (from the default
distribution the empty list falls back on), not zero. -/
theorem C3_counterexample :
    ∃ res, generateLayout (initGen ⟨16, 39/8⟩ ⟨some [], 10⟩ []) "random" rngC5 = some res ∧
      res.ilots.length = 2 ∧ res.ilots.length ≠ 0 := by
  refine ⟨randomPlacement (initGen ⟨16, 39/8⟩ ⟨some [], 10⟩ []) rngC5,
    generateLayout_random _ _, ?_, ?_⟩
  · with_unfolding_all rfl
  · have h2 : (randomPlacement (initGen ⟨16, 39/8⟩ ⟨some [], 10⟩ []) rngC5).ilots.length = 2 := by
      with_unfolding_all rfl
    omega

/-- A restricted zone whose bounding box is [0, 49.55] x [0, 100]. -/
def zone7 : Zone := ⟨"restricted", [⟨0, 0⟩, ⟨991/20, 0⟩, ⟨991/20, 100⟩, ⟨0, 100⟩]⟩

/-- The C7 counterexample generator: a 100-by-100 floor with the same
restricted zone supplied twice, so its area is subtracted twice and the
computed available area (90) far undercounts the true free space. -/
def g7 : Gen := initGen ⟨100, 100⟩ ⟨none, 10⟩ [zone7, zone7]

/-- Oracle placing three units of areas 25, 35 and 49 in the free strip
x > 49.55 (draw order per attempt: area, width, height, x, y). -/
def o7Table : List ℚ := [25, 5, 5, 50, 0, 35, 5, 7, 56, 0, 49, 7, 7, 62, 0]

def rng7 : Rng := ⟨fun n => o7Table.getD n (1/2), 0⟩

/-- C7 counterexample: the computed available area is 90 > 0, yet the
returned utilization is 1090/9 ≈ 121.1 > 100, because the duplicated
restricted zone is double-subtracted while the placed units only have to
avoid its rectangle once. -/
theorem C7_counterexample :
    availableArea g7 = 90 ∧
    ∃ res, generateLayout g7 "random" rng7 = some res ∧
      100 < res.utilization_percentage := by
  refine ⟨by with_unfolding_all rfl, randomPlacement g7 rng7, generateLayout_random _ _, ?_⟩
  have hu : (randomPlacement g7 rng7).utilization_percentage = 1090/9 := by
    with_unfolding_all rfl
  rw [hu]
  norm_num

theorem greedyPlacement_shape (g : Gen) (r : Rng) :
    ∃ l sc, greedyPlacement g r = layoutToResult g l sc :=
  ⟨_, _, rfl⟩

theorem randomPlacement_shape (g : Gen) (r : Rng) :
    ∃ l sc, randomPlacement g r = layoutToResult g l sc :=
  ⟨_, _, rfl⟩

/-- Every dict `generate_layout` returns (when it returns at all) is built by
`_layout_to_result` from some layout and score. -/
theorem generateLayout_shape (g : Gen) (alg : String) (r : Rng) (res : ApiResult)
    (h : generateLayout g alg r = some res) :
    ∃ l sc, res = layoutToResult g l sc := by
  unfold generateLayout at h
  split at h
  · unfold geneticAlgorithm at h
    obtain ⟨l, _, hres⟩ := finishGA_some g _ res h
    exact ⟨l, _, hres⟩
  · split at h
    · obtain ⟨l, sc, he⟩ := greedyPlacement_shape g r
      exact ⟨l, sc, by rw [← Option.some.inj h, he]⟩
    · split at h
      · obtain ⟨l, sc, he⟩ := randomPlacement_shape g r
        exact ⟨l, sc, by rw [← Option.some.inj h, he]⟩
      · unfold geneticAlgorithm at h
        obtain ⟨l, _, hres⟩ := finishGA_some g _ res h
        exact ⟨l, _, hres⟩

theorem layoutToResult_util (g : Gen) (l : Layout) (sc : ℚ) :
    (layoutToResult g l sc).utilization_percentage =
      if 0 < availableArea g then (l.ilots.map Ilot.area).sum / availableArea g * 100
      else 0 := rfl

theorem layoutToResult_areas (g : Gen) (l : Layout) (sc : ℚ) :
    (layoutToResult g l sc).ilots.map IlotData.area = l.ilots.map Ilot.area := by
  rw [layoutToResult]
  rw [List.map_map]
  rfl

/-- C7 (amended): whenever the available area is positive and
`generate_layout` returns, the utilization percentage is nonnegative as soon
as every returned unit area is, and is at most 100 as soon as the returned
unit areas sum to at most the available area.  (Unconditionally the sum can
exceed the available area -- see the counterexample -- so the 0..100 range
claimed by the spec only holds under that extra premise.) -/
theorem C7_amended_utilization_bounds (g : Gen) (alg : String) (r : Rng)
    (res : ApiResult) (hpos : 0 < availableArea g)
    (h : generateLayout g alg r = some res) :
    ((∀ d ∈ res.ilots, 0 ≤ d.area) → 0 ≤ res.utilization_percentage) ∧
    ((res.ilots.map IlotData.area).sum ≤ availableArea g →
      res.utilization_percentage ≤ 100) := by
  obtain ⟨l, sc, hres⟩ := generateLayout_shape g alg r res h
  subst hres
  rw [layoutToResult_util, if_pos hpos, layoutToResult_areas]
  constructor
  · intro hd
    have hS : 0 ≤ (l.ilots.map Ilot.area).sum := by
      apply List.sum_nonneg
      intro a ha
      obtain ⟨i, hi, hia⟩ := List.mem_map.mp ha
      have : (IlotData.mk i.id i.rect.x i.rect.y i.rect.width i.rect.height
          i.area i.room_type) ∈ (layoutToResult g l sc).ilots :=
        List.mem_map_of_mem _ hi
      have h0 := hd _ this
      rw [← hia]
      exact h0
    have h100 : (0:ℚ) ≤ 100 := by norm_num
    exact mul_nonneg (div_nonneg hS (le_of_lt hpos)) h100
  · intro hs
    have h1 : (l.ilots.map Ilot.area).sum / availableArea g ≤ 1 :=
      (div_le_one hpos).mpr hs
    calc (l.ilots.map Ilot.area).sum / availableArea g * 100
        ≤ 1 * 100 := by
          apply mul_le_mul_of_nonneg_right h1
          norm_num
      _ = 100 := by norm_num

/-- Witness for the amended C7 theorem at a concrete input: the random
algorithm on a 16-by-4.875 empty floor (available area 78) places two units
of areas 16 and 27, whose sum 43 stays below 78, so both bounds apply. -/
theorem C7_witness :
    0 ≤ (randomPlacement gC5 rngC5).utilization_percentage ∧
    (randomPlacement gC5 rngC5).utilization_percentage ≤ 100 := by
  have hav : availableArea gC5 = 78 := by with_unfolding_all rfl
  have hmap : (randomPlacement gC5 rngC5).ilots.map IlotData.area = [16, 27] := by
    with_unfolding_all rfl
  have h := C7_amended_utilization_bounds gC5 "random" rngC5
    (randomPlacement gC5 rngC5) (by rw [hav]; norm_num) (generateLayout_random _ _)
  refine ⟨h.1 ?_, h.2 ?_⟩
  · intro d hd
    have hmem : d.area ∈ [(16:ℚ), 27] := by
      rw [← hmap]
      exact List.mem_map_of_mem _ hd
    rcases List.mem_cons.mp hmem with h1 | h1
    · rw [h1]; norm_num
    · rcases List.mem_cons.mp h1 with h2 | h2
      · rw [h2]; norm_num
      · exact absurd h2 (List.not_mem_nil _)
  · rw [hmap, hav]
    norm_num [List.sum_cons, List.sum_nil]
